import Mathlib

/-!
Shallow embedding of the parking-lot-counter tracking core (src/main.go).

Modelling conventions, chosen once for the whole file:
- Go maps keyed by uuid become association lists over natural-number
  identifiers; the list order stands for the (unspecified) Go map
  iteration order, fixed once per run as the source allows.
- uuid.New is modelled by a fresh-counter stored in the centroid map:
  every identifier ever handed out is strictly below the counter, which
  captures the only property the program relies on (freshness).
- float64 arithmetic is modelled exactly: Euclidean distances are
  compared through their squares (math.Sqrt is strictly monotone and
  never overflows here), the math.MaxFloat64 sentinel of ClosestDist
  becomes Option.none (it exceeds every achievable distance and every
  int maxDist), and the int(float64) conversion in Car.Direction is
  truncation toward zero of the exact rational mean, which agrees with
  the float computation for all magnitudes below 2 ^ 53.
- The global flag variables entrance, maxDist, maxGone are threaded as
  explicit parameters.
-/

/-- image.Point of the Go standard library: an integer 2-D coordinate. -/
structure Point where
  X : Int
  Y : Int
deriving DecidableEq, Repr

/-- strings.EqualFold of Go, on the ASCII flag strings this program compares:
character-wise lower-casing of both sides followed by equality. -/
def eqFold (a b : String) : Bool :=
  a.data.map Char.toLower == b.data.map Char.toLower

/-- The entrance test strings.EqualFold(entrance, l) or strings.EqualFold(entrance, r)
used by MeanMovement, Direction and ClosestDist for a vertical entrance mark. -/
def entLR (entrance : String) : Bool := eqFold entrance "l" || eqFold entrance "r"

/-- The entrance test strings.EqualFold(entrance, b) or strings.EqualFold(entrance, t)
used by MeanMovement, Direction and ClosestDist for a horizontal entrance mark. -/
def entBT (entrance : String) : Bool := eqFold entrance "b" || eqFold entrance "t"

/-- Direction of car movement, from src/main.go. -/
inductive Direction where
  | UP
  | DOWN
  | LEFT
  | RIGHT
  | STILL
deriving DecidableEq, Repr

/-- Centroid of a tracked car, from src/main.go. -/
structure Centroid where
  ID : Nat
  Point : Point
  goneCount : Nat
deriving DecidableEq, Repr

/-- A tracked car, from src/main.go. -/
structure Car where
  ID : Nat
  Traject : List Point
  Dir : Direction
  counted : Bool
  gone : Bool
deriving DecidableEq, Repr

/-- Per-position contribution to the MeanMovement sum: the two sequential
if-blocks of the Go loop body add the X coordinate for a vertical entrance
and the Y coordinate for a horizontal one. -/
def axisTerm (entrance : String) (p : Point) : Int :=
  (if entLR entrance then p.X else 0) + (if entBT entrance then p.Y else 0)

/-- Car.MeanMovement from src/main.go: the mean of the axis coordinates of all
positions currently in the trajectory, 0 for an empty trajectory. -/
def Car.MeanMovement (entrance : String) (c : Car) : Rat :=
  if c.Traject.length = 0 then 0
  else (((c.Traject.map (axisTerm entrance)).sum : Int) : Rat) / (c.Traject.length : Rat)

/-- The Go conversion int(x) applied to an exact rational: truncation toward
zero, the floor of a nonnegative value and the ceiling of a negative one. -/
def qtrunc (q : Rat) : Int := if 0 ≤ q then Int.floor q else Int.ceil q

/-- Car.Direction from src/main.go: sign of the difference between the new
position coordinate on the movement axis and the truncated MeanMovement. -/
def Car.Direction (entrance : String) (c : Car) (p : Point) : Direction :=
  let m := qtrunc (c.MeanMovement entrance)
  if entLR entrance && decide (0 < p.X - m) then Direction.RIGHT
  else if entLR entrance && decide (p.X - m < 0) then Direction.LEFT
  else if entBT entrance && decide (0 < p.Y - m) then Direction.DOWN
  else if entBT entrance && decide (p.Y - m < 0) then Direction.UP
  else Direction.STILL

/-- Association-list lookup, the model of Go map indexing. -/
def lookupId {α : Type} : List (Nat × α) → Nat → Option α
  | [], _ => none
  | kv :: rest, id => if kv.1 = id then some kv.2 else lookupId rest id

/-- Key list of an association list. -/
def keys {α : Type} (l : List (Nat × α)) : List Nat := l.map Prod.fst

/-- In-place transformation of the value stored at a key, the model of
assigning through a Go map entry pointer. -/
def mapEntry {α : Type} (l : List (Nat × α)) (id : Nat) (f : α → α) : List (Nat × α) :=
  l.map (fun kv => if kv.1 = id then (kv.1, f kv.2) else kv)

/-- In-place replacement of the entry at a key. -/
def setId {α : Type} (l : List (Nat × α)) (id : Nat) (a : α) : List (Nat × α) :=
  mapEntry l id (fun _ => a)

/-- CarMap from src/main.go, as an association list. -/
abbrev CarMap := List (Nat × Car)

/-- CarMap.Add from src/main.go: start tracking centroid c as a new car with a
single-point trajectory, direction STILL, not counted, not gone. -/
def CarMap.Add (cm : CarMap) (c : Centroid) : CarMap :=
  cm ++ [(c.ID, {ID := c.ID, Traject := [c.Point], Dir := Direction.STILL,
                 counted := false, gone := false})]

/-- The two assignment statements of CarMap.Update for an already tracked
centroid: append the new position, then recompute Dir on the extended
trajectory (the Go code assigns Traject before calling Direction). -/
def carStep (entrance : String) (car : Car) (p : Point) : Car :=
  let car1 : Car := {car with Traject := car.Traject ++ [p]}
  {car1 with Dir := Car.Direction entrance car1 p}

/-- First loop of CarMap.Update: a car whose identifier is absent from the
centroid map is removed when it is gone and STILL, and marked gone otherwise. -/
def carsMarkGone (cents : List (Nat × Centroid)) : CarMap → CarMap
  | [] => []
  | kv :: rest =>
    match lookupId cents kv.1 with
    | some _ => kv :: carsMarkGone cents rest
    | none =>
      if kv.2.gone = true ∧ kv.2.Dir = Direction.STILL then carsMarkGone cents rest
      else (kv.1, {kv.2 with gone := true}) :: carsMarkGone cents rest

/-- Second loop of CarMap.Update: every centroid either starts a new car or
extends the trajectory of its car and recomputes the direction. -/
def carsTrackNew (entrance : String) : List (Nat × Centroid) → CarMap → CarMap
  | [], cm => cm
  | kv :: rest, cm =>
    match lookupId cm kv.1 with
    | none => carsTrackNew entrance rest (CarMap.Add cm kv.2)
    | some car => carsTrackNew entrance rest (setId cm kv.1 (carStep entrance car kv.2.Point))

/-- CentroidMap from src/main.go together with the uuid freshness counter. -/
structure CentroidMap where
  next : Nat
  items : List (Nat × Centroid)
deriving DecidableEq, Repr

/-- CarMap.Update from src/main.go. -/
def CarMap.Update (entrance : String) (cm : CarMap) (centroids : CentroidMap) : CarMap :=
  carsTrackNew entrance centroids.items (carsMarkGone centroids.items cm)

/-- ParkingLot from src/main.go: the two global counters. -/
structure ParkingLot where
  TotalIn : Nat
  TotalOut : Nat
deriving DecidableEq, Repr

/-- Outcome of one iteration of the ParkingLot.Update loop on one car: counter
increments, whether the car stays in the map, and its new record. -/
structure CarStep where
  dIn : Nat
  dOut : Nat
  keep : Bool
  car : Car
deriving DecidableEq, Repr

/-- The body of the ParkingLot.Update loop for a single car: the Go switch on
the entrance string is case sensitive. -/
def plUpdateCar (entrance : String) (car : Car) : CarStep :=
  if car.counted = false then
    if car.gone = false then
      if entrance = "t" ∧ car.Dir = Direction.DOWN then
        {dIn := 1, dOut := 0, keep := true, car := {car with counted := true}}
      else if entrance = "l" ∧ car.Dir = Direction.RIGHT then
        {dIn := 1, dOut := 0, keep := true, car := {car with counted := true}}
      else if entrance = "b" ∧ car.Dir = Direction.UP then
        {dIn := 1, dOut := 0, keep := true, car := {car with counted := true}}
      else if entrance = "r" ∧ car.Dir = Direction.LEFT then
        {dIn := 1, dOut := 0, keep := true, car := {car with counted := true}}
      else {dIn := 0, dOut := 0, keep := true, car := car}
    else
      if entrance = "t" ∧ car.Dir = Direction.UP then
        {dIn := 0, dOut := 1, keep := false, car := car}
      else if entrance = "l" ∧ car.Dir = Direction.LEFT then
        {dIn := 0, dOut := 1, keep := false, car := car}
      else if entrance = "b" ∧ car.Dir = Direction.DOWN then
        {dIn := 0, dOut := 1, keep := false, car := car}
      else if entrance = "r" ∧ car.Dir = Direction.RIGHT then
        {dIn := 0, dOut := 1, keep := false, car := car}
      else {dIn := 0, dOut := 0, keep := true, car := car}
  else
    if car.gone = true then {dIn := 0, dOut := 0, keep := false, car := car}
    else {dIn := 0, dOut := 0, keep := true, car := car}

/-- The ParkingLot.Update loop over the car map, accumulating the counters and
rebuilding the map without the removed cars. -/
def plUpdateList (entrance : String) : CarMap → ParkingLot → ParkingLot × CarMap
  | [], lot => (lot, [])
  | kv :: rest, lot =>
    let st := plUpdateCar entrance kv.2
    let r := plUpdateList entrance rest
      {TotalIn := lot.TotalIn + st.dIn, TotalOut := lot.TotalOut + st.dOut}
    (r.1, if st.keep = true then (kv.1, st.car) :: r.2 else r.2)

/-- ParkingLot.Update from src/main.go. -/
def ParkingLot.Update (entrance : String) (lot : ParkingLot) (cars : CarMap) :
    ParkingLot × CarMap :=
  plUpdateList entrance cars lot

/-- Squared Euclidean distance between a centroid position and a point; the Go
code compares math.Sqrt of this, and both comparisons of ClosestDist are
monotone images of the squared comparison. -/
def dist2 (a b : Point) : Int :=
  (a.X - b.X) * (a.X - b.X) + (a.Y - b.Y) * (a.Y - b.Y)

/-- The gating continue-conditions of CentroidMap.ClosestDist: a candidate is
skipped when it deviates more than 70px in Y for a vertical entrance mark, or
more than 50px in X for a horizontal one. -/
def gatedOut (entrance : String) (c : Centroid) (p : Point) : Bool :=
  (entLR entrance && (decide (c.Point.Y < p.Y - 70) || decide (p.Y + 70 < c.Point.Y))) ||
  (entBT entrance && (decide (c.Point.X < p.X - 50) || decide (p.X + 50 < c.Point.X)))

/-- The ClosestDist loop: running minimum over the non-gated candidates, first
entry winning ties (the Go comparison dist < minDist is strict); none models
the initial math.MaxFloat64 state with its zero-value uuid. -/
def closestAcc (entrance : String) (p : Point) :
    List (Nat × Centroid) → Option (Nat × Int) → Option (Nat × Int)
  | [], acc => acc
  | kv :: rest, acc =>
    if gatedOut entrance kv.2 p then closestAcc entrance p rest acc
    else
      match acc with
      | none => closestAcc entrance p rest (some (kv.1, dist2 kv.2.Point p))
      | some best =>
        if dist2 kv.2.Point p < best.2 then
          closestAcc entrance p rest (some (kv.1, dist2 kv.2.Point p))
        else closestAcc entrance p rest (some best)

/-- CentroidMap.ClosestDist from src/main.go, on the squared-distance model. -/
def CentroidMap.ClosestDist (entrance : String) (cm : CentroidMap) (p : Point) :
    Option (Nat × Int) :=
  closestAcc entrance p cm.items none

/-- The Go comparison dist > float64(maxDist) on the squared model: true for a
negative maxDist (every distance is nonnegative), otherwise the squared
comparison. -/
def distGtMax (d2 maxDist : Int) : Bool :=
  decide (maxDist < 0) || decide (maxDist * maxDist < d2)

/-- CentroidMap.Add from src/main.go: a fresh identifier from the counter, the
given position, goneCount zero. -/
def CentroidMap.Add (cm : CentroidMap) (p : Point) : CentroidMap :=
  {next := cm.next + 1,
   items := cm.items ++ [(cm.next, {ID := cm.next, Point := p, goneCount := 0})]}

/-- State of the first CentroidMap.Update loop: the evolving items plus the
mappedPoints index set and the updatedCentroids identifier set. -/
structure Phase1St where
  items : List (Nat × Centroid)
  mapped : List Nat
  updated : List Nat
deriving DecidableEq, Repr

/-- The two assignments performed on a matched centroid: position replaced,
goneCount reset to zero. -/
def setPointReset (l : List (Nat × Centroid)) (id : Nat) (p : Point) :
    List (Nat × Centroid) :=
  mapEntry l id (fun c => {c with Point := p, goneCount := 0})

/-- One iteration of the first CentroidMap.Update loop on the indexed point ip:
the closest centroid of the current map is taken unless its distance exceeds
maxDist or the alreadyMapped test fires (the Go code tests mappedPoints at the
current point index). -/
def phase1Step (entrance : String) (maxDist : Int) (st : Phase1St) (ip : Nat × Point) :
    Phase1St :=
  match closestAcc entrance ip.2 st.items none with
  | none => st
  | some best =>
    if distGtMax best.2 maxDist || decide (ip.1 ∈ st.mapped) then st
    else
      {items := setPointReset st.items best.1 ip.2,
       mapped := st.mapped ++ [ip.1],
       updated := st.updated ++ [best.1]}

/-- The first CentroidMap.Update loop over all indexed points. -/
def phase1Run (entrance : String) (maxDist : Int) :
    List (Nat × Point) → Phase1St → Phase1St
  | [], st => st
  | ip :: rest, st => phase1Run entrance maxDist rest (phase1Step entrance maxDist st ip)

/-- Aging of one centroid value: goneCount is incremented and the centroid is
dropped when the new count exceeds maxGone. -/
def ageC (maxGone : Nat) (c : Centroid) : Option Centroid :=
  if c.goneCount + 1 > maxGone then none
  else some {c with goneCount := c.goneCount + 1}

/-- Aging of one centroid entry, keeping its key. -/
def ageEntry (maxGone : Nat) (kv : Nat × Centroid) : Option (Nat × Centroid) :=
  (ageC maxGone kv.2).map (fun c => (kv.1, c))

/-- The empty-points branch of CentroidMap.Update: every centroid ages. -/
def ageItems (maxGone : Nat) (l : List (Nat × Centroid)) : List (Nat × Centroid) :=
  l.filterMap (ageEntry maxGone)

/-- The second CentroidMap.Update loop: centroids in updatedCentroids are kept
as they are, all others age. -/
def ageUnmatched (maxGone : Nat) (updated : List Nat) (l : List (Nat × Centroid)) :
    List (Nat × Centroid) :=
  l.filterMap (fun kv => if kv.1 ∈ updated then some kv else ageEntry maxGone kv)

/-- The no-centroids branch of CentroidMap.Update: every point starts a fresh
centroid, in point order. -/
def addAll : CentroidMap → List Point → CentroidMap
  | cm, [] => cm
  | cm, p :: rest => addAll (CentroidMap.Add cm p) rest

/-- The third CentroidMap.Update loop: every point index missing from
mappedPoints starts a fresh centroid. -/
def addUnmapped (mapped : List Nat) : CentroidMap → List (Nat × Point) → CentroidMap
  | cm, [] => cm
  | cm, ip :: rest =>
    if ip.1 ∈ mapped then addUnmapped mapped cm rest
    else addUnmapped mapped (CentroidMap.Add cm ip.2) rest

/-- CentroidMap.Update from src/main.go. -/
def CentroidMap.Update (entrance : String) (maxDist : Int) (maxGone : Nat)
    (cm : CentroidMap) (points : List Point) : CentroidMap :=
  if points.length = 0 then {next := cm.next, items := ageItems maxGone cm.items}
  else if cm.items.length = 0 then addAll cm points
  else
    let st := phase1Run entrance maxDist points.enum
      {items := cm.items, mapped := [], updated := []}
    addUnmapped st.mapped
      {next := cm.next, items := ageUnmatched maxGone st.updated st.items} points.enum

/-- The set of centroid identifiers whose position is written by some point of
this update (the updatedCentroids map of the Go code); empty in the two early
branches. -/
def matchedIds (entrance : String) (maxDist : Int) (cm : CentroidMap)
    (points : List Point) : List Nat :=
  if points.length = 0 then []
  else if cm.items.length = 0 then []
  else (phase1Run entrance maxDist points.enum
    {items := cm.items, mapped := [], updated := []}).updated

/-- The tracking state owned by the frameRunner goroutine: the centroid map,
the car map and the parking-lot counters. -/
structure SysState where
  centroids : CentroidMap
  cars : CarMap
  lot : ParkingLot
deriving DecidableEq, Repr

/-- One processed frame of frameRunner, after point extraction: the three
update calls in their source order. -/
def sysStep (entrance : String) (maxDist : Int) (maxGone : Nat) (s : SysState)
    (points : List Point) : SysState :=
  let cents := CentroidMap.Update entrance maxDist maxGone s.centroids points
  let cars1 := CarMap.Update entrance s.cars cents
  let r := ParkingLot.Update entrance s.lot cars1
  {centroids := cents, cars := r.2, lot := r.1}

/-- A run of frameRunner over a list of per-frame point lists. -/
def runSteps (entrance : String) (maxDist : Int) (maxGone : Nat) (s : SysState)
    (pss : List (List Point)) : SysState :=
  pss.foldl (sysStep entrance maxDist maxGone) s

/-- The initial frameRunner state: no centroids, no cars, zero counters. -/
def initState : SysState :=
  {centroids := {next := 0, items := []}, cars := [], lot := {TotalIn := 0, TotalOut := 0}}

/-! ## Claim-side definitions

These definitions follow the words of the spec sentences the claims quote;
they are compared against the source-side definitions above. -/

/-- Direction inference as claim C1 words it: the new position coordinate on
the movement axis is compared with the exact mean of all PREVIOUS trajectory
positions on that axis, the mean being 0 when there are no prior points. -/
def claimC1Direction (entrance : String) (prevTraj : List Point) (p : Point) : Direction :=
  let m : Rat := if prevTraj.length = 0 then 0
    else (((prevTraj.map (axisTerm entrance)).sum : Int) : Rat) / (prevTraj.length : Rat)
  if entLR entrance then
    if m < (p.X : Rat) then Direction.RIGHT
    else if (p.X : Rat) < m then Direction.LEFT
    else Direction.STILL
  else if entBT entrance then
    if m < (p.Y : Rat) then Direction.DOWN
    else if (p.Y : Rat) < m then Direction.UP
    else Direction.STILL
  else Direction.STILL

/-- Direction inference as the code implements it (claim C1 amended): after
the new position has been appended, its axis coordinate is compared with the
truncation toward zero of the mean of the whole stored trajectory, the new
position included; an empty trajectory has mean 0. -/
def amendedC1Direction (entrance : String) (fullTraj : List Point) (p : Point) : Direction :=
  let m := qtrunc (if fullTraj.length = 0 then 0
    else (((fullTraj.map (axisTerm entrance)).sum : Int) : Rat) / (fullTraj.length : Rat))
  if entLR entrance && decide (0 < p.X - m) then Direction.RIGHT
  else if entLR entrance && decide (p.X - m < 0) then Direction.LEFT
  else if entBT entrance && decide (0 < p.Y - m) then Direction.DOWN
  else if entBT entrance && decide (p.Y - m < 0) then Direction.UP
  else Direction.STILL

/-- The inbound direction for each boundary selector: the table of spec
section 4.4 quoted by claim C2. -/
def inboundDir (entrance : String) : Option Direction :=
  if entrance = "t" then some Direction.DOWN
  else if entrance = "b" then some Direction.UP
  else if entrance = "l" then some Direction.RIGHT
  else if entrance = "r" then some Direction.LEFT
  else none

/-- The outbound direction for each boundary selector: the table of spec
section 4.4 quoted by claim C2. -/
def outboundDir (entrance : String) : Option Direction :=
  if entrance = "t" then some Direction.UP
  else if entrance = "b" then some Direction.DOWN
  else if entrance = "l" then some Direction.LEFT
  else if entrance = "r" then some Direction.RIGHT
  else none

/-- image.Rectangle of the Go standard library. -/
structure Rect where
  Min : Point
  Max : Point
deriving DecidableEq, Repr

/-- Rectangle.Empty of the Go image package. -/
def Rect.Empty (r : Rect) : Bool :=
  decide (r.Max.X ≤ r.Min.X) || decide (r.Max.Y ≤ r.Min.Y)

/-- Rectangle.In of the Go image package: an empty rectangle is in every
rectangle, otherwise the bounds are compared. -/
def Rect.In (r s : Rect) : Bool :=
  if r.Empty then true
  else decide (s.Min.X ≤ r.Min.X) && decide (r.Max.X ≤ s.Max.X) &&
    decide (s.Min.Y ≤ r.Min.Y) && decide (r.Max.Y ≤ s.Max.Y)

/-- Rectangle.Size of the Go image package. -/
def Rect.Size (r : Rect) : Point := {X := r.Max.X - r.Min.X, Y := r.Max.Y - r.Min.Y}

/-- The body of the extractCenterPoints loop of src/main.go for one detected
rectangle: containment filter, minimum-size filter, width and height clipping
with ceilings 200 and 350, and the center of the resulting box (Go integer
division truncates toward zero). -/
def processRect (cols rows : Int) (r : Rect) : Option Point :=
  if !(r.In {Min := {X := 0, Y := 0}, Max := {X := cols, Y := rows}}) then none
  else
    if r.Size.X < 80 ∨ r.Size.Y < 50 then none
    else
      let width := if 200 < r.Size.X then
          (if r.Min.X + 200 < cols then 200 else r.Size.X)
        else (if cols < r.Min.X + r.Size.X then cols - r.Min.X else r.Size.X)
      let height := if 350 < r.Size.Y then
          (if r.Min.Y + 350 < rows then 350 else r.Size.Y)
        else (if rows < r.Min.Y + r.Size.Y then rows - r.Min.Y else r.Size.Y)
      some {X := r.Min.X + Int.tdiv width 2, Y := r.Min.Y + Int.tdiv height 2}

/-- extractCenterPoints of src/main.go over a list of detection rectangles. -/
def extractCenterPoints (rects : List Rect) (cols rows : Int) : List Point :=
  rects.filterMap (processRect cols rows)

/-- The emitted anchor point as claim C7 words it: each oversized side is
shrunk toward the origin to its clip ceiling when origin plus ceiling still
fits inside the frame and to exactly the remaining frame space otherwise, and
the point is the center of the possibly clipped box. -/
def claimC7Center (cols rows : Int) (r : Rect) : Point :=
  let w := if 200 < r.Size.X then
      (if r.Min.X + 200 < cols then 200 else cols - r.Min.X)
    else r.Size.X
  let h := if 350 < r.Size.Y then
      (if r.Min.Y + 350 < rows then 350 else rows - r.Min.Y)
    else r.Size.Y
  {X := r.Min.X + Int.tdiv w 2, Y := r.Min.Y + Int.tdiv h 2}

/-! ## Association-list lemmas -/

lemma lookupId_append {α : Type} (l1 l2 : List (Nat × α)) (id : Nat) :
    lookupId (l1 ++ l2) id =
      match lookupId l1 id with
      | some a => some a
      | none => lookupId l2 id := by
  induction l1 with
  | nil => simp [lookupId]
  | cons kv rest ih =>
    by_cases h : kv.1 = id <;> simp [lookupId, h, ih]

lemma lookupId_eq_none_iff {α : Type} (l : List (Nat × α)) (id : Nat) :
    lookupId l id = none ↔ id ∉ keys l := by
  induction l with
  | nil => simp [lookupId, keys]
  | cons kv rest ih =>
    by_cases h : kv.1 = id
    · simp [lookupId, keys, h]
    · have h2 : ¬(id = kv.1) := fun he => h he.symm
      simp [lookupId, keys, h, h2, ih]

lemma mem_of_lookupId {α : Type} {l : List (Nat × α)} {id : Nat} {a : α}
    (h : lookupId l id = some a) : (id, a) ∈ l := by
  induction l with
  | nil => simp [lookupId] at h
  | cons kv rest ih =>
    by_cases hk : kv.1 = id
    · simp [lookupId, hk] at h
      subst hk
      simp [← h]
    · simp [lookupId, hk] at h
      simp [ih h]

lemma lookupId_isSome_of_mem_keys {α : Type} {l : List (Nat × α)} {id : Nat}
    (h : id ∈ keys l) : lookupId l id ≠ none := by
  intro hn
  exact (lookupId_eq_none_iff l id).mp hn h

lemma keys_mapEntry {α : Type} (l : List (Nat × α)) (id : Nat) (f : α → α) :
    keys (mapEntry l id f) = keys l := by
  induction l with
  | nil => rfl
  | cons kv rest ih =>
    by_cases h : kv.1 = id <;> simp [mapEntry, keys, h] at * <;> simpa [mapEntry, keys] using ih

lemma lookupId_mapEntry_self {α : Type} (l : List (Nat × α)) (id : Nat) (f : α → α) :
    lookupId (mapEntry l id f) id = (lookupId l id).map f := by
  induction l with
  | nil => rfl
  | cons kv rest ih =>
    by_cases h : kv.1 = id
    · simp [mapEntry, lookupId, h] at *
    · simp [mapEntry, lookupId, h] at *
      exact ih

lemma lookupId_mapEntry_ne {α : Type} (l : List (Nat × α)) {id k : Nat} (f : α → α)
    (h : k ≠ id) : lookupId (mapEntry l k f) id = lookupId l id := by
  induction l with
  | nil => rfl
  | cons kv rest ih =>
    simp only [mapEntry, List.map_cons] at ih ⊢
    by_cases hk : kv.1 = k
    · rw [if_pos hk]
      have h1 : kv.1 ≠ id := fun hi => h (by rw [← hk]; exact hi)
      simp only [lookupId]
      rw [if_neg h1, if_neg h1]
      exact ih
    · rw [if_neg hk]
      simp only [lookupId]
      by_cases hi : kv.1 = id
      · rw [if_pos hi, if_pos hi]
      · rw [if_neg hi, if_neg hi]
        exact ih

lemma lookupId_setId_self {α : Type} (l : List (Nat × α)) (id : Nat) (a : α) :
    lookupId (setId l id a) id = (lookupId l id).map (fun _ => a) := by
  simp [setId, lookupId_mapEntry_self]

lemma lookupId_setId_ne {α : Type} (l : List (Nat × α)) {id k : Nat} (a : α)
    (h : k ≠ id) : lookupId (setId l k a) id = lookupId l id := by
  simp [setId, lookupId_mapEntry_ne _ _ h]

lemma mem_mapEntry {α : Type} {l : List (Nat × α)} {id : Nat} {f : α → α}
    {kv2 : Nat × α} (h : kv2 ∈ mapEntry l id f) :
    ∃ kv ∈ l, kv2.1 = kv.1 ∧ (kv2.2 = kv.2 ∨ (kv.1 = id ∧ kv2.2 = f kv.2)) := by
  simp only [mapEntry, List.mem_map] at h
  obtain ⟨kv, hmem, heq⟩ := h
  refine ⟨kv, hmem, ?_⟩
  by_cases hk : kv.1 = id
  · rw [if_pos hk] at heq
    subst heq
    exact ⟨rfl, Or.inr ⟨hk, rfl⟩⟩
  · rw [if_neg hk] at heq
    subst heq
    exact ⟨rfl, Or.inl rfl⟩

/-! ## ParkingLot.Update lemmas -/

lemma plUpdateCar_counted_noop (entrance : String) (car : Car) (h : car.counted = true) :
    plUpdateCar entrance car = {dIn := 0, dOut := 0, keep := !car.gone, car := car} := by
  rcases car with ⟨cid, tra, dir, cnt, gn⟩
  simp only at h
  subst h
  cases gn <;> simp [plUpdateCar]

lemma plUpdateCar_car_gone (entrance : String) (car : Car) :
    (plUpdateCar entrance car).car.gone = car.gone := by
  unfold plUpdateCar
  split_ifs <;> rfl

lemma plUpdateCar_counted_mono (entrance : String) (car : Car) (h : car.counted = true) :
    (plUpdateCar entrance car).car.counted = true := by
  rw [plUpdateCar_counted_noop entrance car h]
  exact h

lemma plUpdateCar_dIn_counted (entrance : String) (car : Car)
    (h : 1 ≤ (plUpdateCar entrance car).dIn) :
    (plUpdateCar entrance car).car.counted = true := by
  unfold plUpdateCar at *
  split_ifs at * <;> simp_all

lemma plUpdateCar_dOut_keep (entrance : String) (car : Car)
    (h : 1 ≤ (plUpdateCar entrance car).dOut) :
    (plUpdateCar entrance car).keep = false := by
  unfold plUpdateCar at *
  split_ifs at * <;> simp_all

lemma plUpdateCar_kept_gone_not_counted (entrance : String) (car : Car)
    (hk : (plUpdateCar entrance car).keep = true)
    (hg : (plUpdateCar entrance car).car.gone = true) :
    (plUpdateCar entrance car).car.counted = false := by
  unfold plUpdateCar at *
  split_ifs at * <;> simp_all

lemma plUpdateList_spec (entrance : String) (cars : CarMap) (lot : ParkingLot) :
    plUpdateList entrance cars lot =
      ({TotalIn := lot.TotalIn + (cars.map (fun kv => (plUpdateCar entrance kv.2).dIn)).sum,
        TotalOut := lot.TotalOut + (cars.map (fun kv => (plUpdateCar entrance kv.2).dOut)).sum},
       cars.filterMap (fun kv => if (plUpdateCar entrance kv.2).keep = true
         then some (kv.1, (plUpdateCar entrance kv.2).car) else none)) := by
  induction cars generalizing lot with
  | nil => simp [plUpdateList]
  | cons kv rest ih =>
    by_cases hkeep : (plUpdateCar entrance kv.2).keep = true <;>
      simp [plUpdateList, ih, hkeep, List.filterMap_cons] <;>
      constructor <;> omega

lemma keys_plUpdateList_sublist (entrance : String) (cars : CarMap) (lot : ParkingLot) :
    List.Sublist (keys (plUpdateList entrance cars lot).2) (keys cars) := by
  rw [plUpdateList_spec]
  simp only [keys]
  induction cars with
  | nil => simp
  | cons kv rest ih =>
    rw [List.filterMap_cons]
    by_cases hkeep : (plUpdateCar entrance kv.2).keep = true
    · rw [if_pos hkeep]
      simpa using ih.cons₂ kv.1
    · rw [if_neg hkeep]
      simpa using ih.cons kv.1

lemma lookupId_plUpdateList (entrance : String) (cars : CarMap) (lot : ParkingLot)
    (id : Nat) (hnd : (keys cars).Nodup) :
    lookupId (plUpdateList entrance cars lot).2 id =
      match lookupId cars id with
      | none => none
      | some c => if (plUpdateCar entrance c).keep = true
          then some (plUpdateCar entrance c).car else none := by
  induction cars generalizing lot with
  | nil => simp [plUpdateList, lookupId]
  | cons kv rest ih =>
    simp only [keys, List.map_cons, List.nodup_cons] at hnd
    have hndr : (keys rest).Nodup := hnd.2
    by_cases hk : kv.1 = id
    · subst hk
      have hrest : lookupId rest kv.1 = none :=
        (lookupId_eq_none_iff _ _).mpr (by simpa [keys] using hnd.1)
      by_cases hkeep : (plUpdateCar entrance kv.2).keep = true
      · simp [plUpdateList, lookupId, hkeep]
      · simp [plUpdateList, lookupId, hkeep, ih _ hndr, hrest]
    · by_cases hkeep : (plUpdateCar entrance kv.2).keep = true <;>
        simp [plUpdateList, lookupId, hkeep, hk, ih _ hndr]

/-! ## CarMap.Update lemmas -/

lemma keys_carsMarkGone_sublist (cents : List (Nat × Centroid)) (cm : CarMap) :
    List.Sublist (keys (carsMarkGone cents cm)) (keys cm) := by
  induction cm with
  | nil => simp [carsMarkGone, keys]
  | cons kv rest ih =>
    simp only [carsMarkGone]
    cases hc : lookupId cents kv.1 with
    | some c => simpa [keys] using ih.cons₂ kv.1
    | none =>
      by_cases hgs : kv.2.gone = true ∧ kv.2.Dir = Direction.STILL
      · rw [if_pos hgs]
        simpa [keys] using ih.cons kv.1
      · rw [if_neg hgs]
        simpa [keys] using ih.cons₂ kv.1

lemma lookupId_carsMarkGone_none {cents : List (Nat × Centroid)} {cm : CarMap} {id : Nat}
    (h : lookupId cm id = none) : lookupId (carsMarkGone cents cm) id = none := by
  rw [lookupId_eq_none_iff] at h ⊢
  intro hmem
  exact h ((keys_carsMarkGone_sublist cents cm).subset hmem)

lemma lookupId_carsMarkGone (cents : List (Nat × Centroid)) (cm : CarMap) (id : Nat)
    (hnd : (keys cm).Nodup) :
    lookupId (carsMarkGone cents cm) id =
      match lookupId cm id with
      | none => none
      | some car =>
        match lookupId cents id with
        | some _ => some car
        | none =>
          if car.gone = true ∧ car.Dir = Direction.STILL then none
          else some {car with gone := true} := by
  induction cm with
  | nil => simp [carsMarkGone, lookupId]
  | cons kv rest ih =>
    simp only [keys, List.map_cons, List.nodup_cons] at hnd
    have hndr : (keys rest).Nodup := hnd.2
    by_cases hk : kv.1 = id
    · subst hk
      have hrest : lookupId rest kv.1 = none :=
        (lookupId_eq_none_iff _ _).mpr (by simpa [keys] using hnd.1)
      cases hc : lookupId cents kv.1 with
      | some c => simp [carsMarkGone, lookupId, hc]
      | none =>
        by_cases hgs : kv.2.gone = true ∧ kv.2.Dir = Direction.STILL
        · simp [carsMarkGone, lookupId, hc, hgs, lookupId_carsMarkGone_none hrest]
        · simp [carsMarkGone, lookupId, hc, hgs]
    · cases hc : lookupId cents kv.1 with
      | some c => simp [carsMarkGone, lookupId, hc, hk, ih hndr]
      | none =>
        by_cases hgs : kv.2.gone = true ∧ kv.2.Dir = Direction.STILL <;>
          simp [carsMarkGone, lookupId, hc, hgs, hk, ih hndr]

lemma mem_carsMarkGone {cents : List (Nat × Centroid)} {cm : CarMap} {kv2 : Nat × Car}
    (h : kv2 ∈ carsMarkGone cents cm) :
    ∃ kv ∈ cm, kv2.1 = kv.1 ∧
      (kv2.2 = kv.2 ∨ (lookupId cents kv.1 = none ∧ kv2.2 = {kv.2 with gone := true})) := by
  induction cm with
  | nil => simp [carsMarkGone] at h
  | cons kv rest ih =>
    simp only [carsMarkGone] at h
    cases hc : lookupId cents kv.1 with
    | some c =>
      rw [hc] at h
      rcases List.mem_cons.mp h with he | hr
      · exact ⟨kv, by simp, by rw [he], Or.inl (by rw [he])⟩
      · obtain ⟨kv0, hm, hp⟩ := ih hr
        exact ⟨kv0, by simp [hm], hp⟩
    | none =>
      rw [hc] at h
      by_cases hgs : kv.2.gone = true ∧ kv.2.Dir = Direction.STILL
      · rw [if_pos hgs] at h
        obtain ⟨kv0, hm, hp⟩ := ih h
        exact ⟨kv0, by simp [hm], hp⟩
      · rw [if_neg hgs] at h
        rcases List.mem_cons.mp h with he | hr
        · refine ⟨kv, by simp, by rw [he], Or.inr ⟨hc, by rw [he]⟩⟩
        · obtain ⟨kv0, hm, hp⟩ := ih hr
          exact ⟨kv0, by simp [hm], hp⟩

lemma lookupId_of_mem_nodup {α : Type} {l : List (Nat × α)} (hnd : (keys l).Nodup)
    {kv : Nat × α} (h : kv ∈ l) : lookupId l kv.1 = some kv.2 := by
  induction l with
  | nil => simp at h
  | cons kv0 rest ih =>
    simp only [keys, List.map_cons, List.nodup_cons] at hnd
    rcases List.mem_cons.mp h with he | hr
    · subst he
      simp [lookupId]
    · have hne : kv0.1 ≠ kv.1 := by
        intro he
        exact hnd.1 (by rw [he]; exact List.mem_map_of_mem Prod.fst hr)
      simp [lookupId, hne, ih hnd.2 hr]

lemma carStep_counted (entrance : String) (car : Car) (p : Point) :
    (carStep entrance car p).counted = car.counted := rfl

lemma carStep_gone (entrance : String) (car : Car) (p : Point) :
    (carStep entrance car p).gone = car.gone := rfl

lemma lookupId_carsTrackNew_notin (entrance : String) (cents : List (Nat × Centroid))
    (id : Nat) (hids : ∀ kv ∈ cents, kv.1 = kv.2.ID) (hnotin : id ∉ keys cents) :
    ∀ cm : CarMap, lookupId (carsTrackNew entrance cents cm) id = lookupId cm id := by
  induction cents with
  | nil => intro cm; rfl
  | cons kv rest ih =>
    intro cm
    have hkv : kv.1 = kv.2.ID := hids kv (by simp)
    have hne : kv.1 ≠ id := by
      intro he
      exact hnotin (by rw [← he]; simp [keys])
    have hrest : id ∉ keys rest := by
      intro hmem
      exact hnotin (by simp [keys] at hmem ⊢; exact Or.inr hmem)
    have hidsr : ∀ kv0 ∈ rest, kv0.1 = kv0.2.ID := fun kv0 hm => hids kv0 (by simp [hm])
    cases hl : lookupId cm kv.1 with
    | none =>
      simp only [carsTrackNew, hl]
      rw [ih hidsr hrest]
      rw [CarMap.Add, lookupId_append]
      cases hcm : lookupId cm id with
      | some car => simp
      | none =>
        have h2 : kv.2.ID ≠ id := by rw [← hkv]; exact hne
        simp [lookupId, h2]
    | some car =>
      simp only [carsTrackNew, hl]
      rw [ih hidsr hrest]
      exact lookupId_setId_ne cm _ hne

lemma lookupId_carsTrackNew_found (entrance : String) (cents : List (Nat × Centroid))
    (id : Nat) (cent : Centroid) (hids : ∀ kv ∈ cents, kv.1 = kv.2.ID)
    (hnd : (keys cents).Nodup) (hc : lookupId cents id = some cent) :
    ∀ (cm : CarMap) (car : Car), lookupId cm id = some car →
      lookupId (carsTrackNew entrance cents cm) id = some (carStep entrance car cent.Point) := by
  induction cents with
  | nil => intro cm car h; simp [lookupId] at hc
  | cons kv rest ih =>
    intro cm car hcm
    simp only [keys, List.map_cons, List.nodup_cons] at hnd
    have hidsr : ∀ kv0 ∈ rest, kv0.1 = kv0.2.ID := fun kv0 hm => hids kv0 (by simp [hm])
    by_cases hk : kv.1 = id
    · subst hk
      simp only [lookupId, if_pos rfl] at hc
      have hcent : kv.2 = cent := Option.some.inj hc
      have hrest : kv.1 ∉ keys rest := by simpa [keys] using hnd.1
      simp only [carsTrackNew, hcm]
      rw [lookupId_carsTrackNew_notin entrance rest kv.1 hidsr hrest]
      rw [lookupId_setId_self]
      rw [hcm, hcent]
      rfl
    · have hc2 : lookupId rest id = some cent := by
        simpa [lookupId, hk] using hc
      cases hl : lookupId cm kv.1 with
      | none =>
        simp only [carsTrackNew, hl]
        refine ih hidsr hnd.2 hc2 _ car ?_
        rw [CarMap.Add, lookupId_append, hcm]
      | some car0 =>
        simp only [carsTrackNew, hl]
        refine ih hidsr hnd.2 hc2 _ car ?_
        rw [lookupId_setId_ne cm _ hk, hcm]

/-! ## Claims C1, C2, C3 -/

/-- Concrete one-car state separating claim C1 from the code: a trajectory
holding the single point (0,3), updated with the new position (0,2). -/
def c1Car : Car :=
  {ID := 0, Traject := [{X := 0, Y := 3}], Dir := Direction.STILL, counted := false, gone := false}

/-- The centroid map delivering the new position (0,2) for the car of c1Car. -/
def c1Cents : CentroidMap :=
  {next := 1, items := [(0, {ID := 0, Point := {X := 0, Y := 2}, goneCount := 0})]}

/-- Claim C1, counterexample: for the car with trajectory [(0,3)] updated with
centroid position (0,2) under the bottom boundary, the claim rule (compare the
new Y with the exact mean 3 of the previous positions) yields UP, but the code
appends the point first and compares 2 with int(5/2) = 2, yielding STILL. -/
theorem c1_counterexample :
    claimC1Direction "b" c1Car.Traject {X := 0, Y := 2} = Direction.UP ∧
    lookupId (CarMap.Update "b" [(0, c1Car)] c1Cents) 0 =
      some {ID := 0, Traject := [{X := 0, Y := 3}, {X := 0, Y := 2}],
            Dir := Direction.STILL, counted := false, gone := false} := by
  have hLR : entLR "b" = false := by decide
  have hBT : entBT "b" = true := by decide
  constructor
  · norm_num [claimC1Direction, c1Car, axisTerm, hLR, hBT]
  · norm_num [CarMap.Update, c1Car, c1Cents, carsMarkGone, carsTrackNew, lookupId,
      CarMap.Add, setId, mapEntry, carStep, Car.Direction, Car.MeanMovement, qtrunc,
      axisTerm, hLR, hBT]

/-- Claim C1 amended: for every tracked object updated with a new centroid
position, the new position is first appended to the trajectory, and the
direction then compares the new coordinate on the movement axis with the
truncation toward zero of the mean of the whole stored trajectory, the new
position included (strictly greater gives Down or Right, strictly smaller Up
or Left, equal Still; an empty trajectory has mean 0). -/
theorem c1_direction_full_mean (entrance : String) (cm : CarMap) (cents : CentroidMap)
    (id : Nat) (car : Car) (cent : Centroid)
    (hids : ∀ kv ∈ cents.items, kv.1 = kv.2.ID)
    (hnd : (keys cents.items).Nodup)
    (hndcm : (keys cm).Nodup)
    (hcar : lookupId cm id = some car)
    (hcent : lookupId cents.items id = some cent) :
    lookupId (CarMap.Update entrance cm cents) id =
      some {ID := car.ID, Traject := car.Traject ++ [cent.Point],
            Dir := amendedC1Direction entrance (car.Traject ++ [cent.Point]) cent.Point,
            counted := car.counted, gone := car.gone} := by
  have h1 : lookupId (carsMarkGone cents.items cm) id = some car := by
    rw [lookupId_carsMarkGone cents.items cm id hndcm, hcar, hcent]
  have h2 := lookupId_carsTrackNew_found entrance cents.items id cent hids hnd hcent
    (carsMarkGone cents.items cm) car h1
  rw [CarMap.Update, h2]
  rfl

/-- Witness for the amended claim C1 at the concrete state of the
counterexample: the hypotheses hold and the characterization applies. -/
theorem c1_direction_full_mean_witness :
    lookupId [(0, c1Car)] 0 = some c1Car ∧
    lookupId (CarMap.Update "b" [(0, c1Car)] c1Cents) 0 =
      some {ID := c1Car.ID, Traject := c1Car.Traject ++ [{X := 0, Y := 2}],
            Dir := amendedC1Direction "b" (c1Car.Traject ++ [{X := 0, Y := 2}]) {X := 0, Y := 2},
            counted := c1Car.counted, gone := c1Car.gone} :=
  ⟨by decide,
   c1_direction_full_mean "b" [(0, c1Car)] c1Cents 0 c1Car
     {ID := 0, Point := {X := 0, Y := 2}, goneCount := 0}
     (by decide) (by decide) (by decide) (by decide) (by decide)⟩

/-- Claim C2: the per-object Zone Counter state machine. An uncounted object
that is present and moving in the inbound direction of the boundary increments
TotalIn and is flagged counted; an uncounted gone object moving in the
outbound direction increments TotalOut and is removed in the same step; other
uncounted objects are untouched; counted objects never change either counter
and are removed exactly when gone. The final conjunct ties the per-object
machine to ParkingLot.Update: the counters accumulate the per-object
increments and the surviving map keeps exactly the kept objects. -/
theorem c2_zone_counter (entrance : String) (inb outb : Direction) (car : Car)
    (hin : inboundDir entrance = some inb) (hout : outboundDir entrance = some outb) :
    (car.counted = false → car.gone = false → car.Dir = inb →
      plUpdateCar entrance car =
        {dIn := 1, dOut := 0, keep := true, car := {car with counted := true}}) ∧
    (car.counted = false → car.gone = false → car.Dir ≠ inb →
      plUpdateCar entrance car = {dIn := 0, dOut := 0, keep := true, car := car}) ∧
    (car.counted = false → car.gone = true → car.Dir = outb →
      plUpdateCar entrance car = {dIn := 0, dOut := 1, keep := false, car := car}) ∧
    (car.counted = false → car.gone = true → car.Dir ≠ outb →
      plUpdateCar entrance car = {dIn := 0, dOut := 0, keep := true, car := car}) ∧
    (car.counted = true → car.gone = true →
      plUpdateCar entrance car = {dIn := 0, dOut := 0, keep := false, car := car}) ∧
    (car.counted = true → car.gone = false →
      plUpdateCar entrance car = {dIn := 0, dOut := 0, keep := true, car := car}) ∧
    (∀ (lot : ParkingLot) (cars : CarMap),
      (ParkingLot.Update entrance lot cars).1.TotalIn =
        lot.TotalIn + (cars.map (fun kv => (plUpdateCar entrance kv.2).dIn)).sum ∧
      (ParkingLot.Update entrance lot cars).1.TotalOut =
        lot.TotalOut + (cars.map (fun kv => (plUpdateCar entrance kv.2).dOut)).sum ∧
      (ParkingLot.Update entrance lot cars).2 =
        cars.filterMap (fun kv => if (plUpdateCar entrance kv.2).keep = true
          then some (kv.1, (plUpdateCar entrance kv.2).car) else none)) := by
  have hcases : (entrance = "t" ∧ inb = Direction.DOWN ∧ outb = Direction.UP) ∨
      (entrance = "b" ∧ inb = Direction.UP ∧ outb = Direction.DOWN) ∨
      (entrance = "l" ∧ inb = Direction.RIGHT ∧ outb = Direction.LEFT) ∨
      (entrance = "r" ∧ inb = Direction.LEFT ∧ outb = Direction.RIGHT) := by
    unfold inboundDir at hin
    unfold outboundDir at hout
    split_ifs at hin hout with h1 h2 h3 h4
    · exact Or.inl ⟨h1, (Option.some.inj hin).symm, (Option.some.inj hout).symm⟩
    · exact Or.inr (Or.inl ⟨h2, (Option.some.inj hin).symm, (Option.some.inj hout).symm⟩)
    · exact Or.inr (Or.inr (Or.inl ⟨h3, (Option.some.inj hin).symm, (Option.some.inj hout).symm⟩))
    · exact Or.inr (Or.inr (Or.inr ⟨h4, (Option.some.inj hin).symm, (Option.some.inj hout).symm⟩))
  rcases hcases with ⟨he, hi, ho⟩ | ⟨he, hi, ho⟩ | ⟨he, hi, ho⟩ | ⟨he, hi, ho⟩ <;>
    subst he <;> subst hi <;> subst ho <;>
    exact ⟨fun h1 h2 h3 => by simp [plUpdateCar, h1, h2, h3],
      fun h1 h2 h3 => by simp [plUpdateCar, h1, h2, h3],
      fun h1 h2 h3 => by simp [plUpdateCar, h1, h2, h3],
      fun h1 h2 h3 => by simp [plUpdateCar, h1, h2, h3],
      fun h1 h2 => by simp [plUpdateCar, h1, h2],
      fun h1 h2 => by simp [plUpdateCar, h1, h2],
      fun lot cars => by rw [ParkingLot.Update, plUpdateList_spec]; exact ⟨rfl, rfl, rfl⟩⟩

/-- Witness for claim C2 at the bottom boundary: an uncounted, present car
moving UP is counted in. -/
theorem c2_zone_counter_witness :
    inboundDir "b" = some Direction.UP ∧
    plUpdateCar "b" {ID := 7, Traject := [], Dir := Direction.UP, counted := false, gone := false} =
      {dIn := 1, dOut := 0, keep := true,
       car := {ID := 7, Traject := [], Dir := Direction.UP, counted := true, gone := false}} :=
  ⟨rfl,
   (c2_zone_counter "b" Direction.UP Direction.DOWN
     {ID := 7, Traject := [], Dir := Direction.UP, counted := false, gone := false}
     rfl rfl).1 rfl rfl rfl⟩

/-- Claim C3 fails on the code: the alreadyMapped test of CentroidMap.Update
reads mappedPoints at the current point index, which is never present, so it
never fires. At the failing input below, both points are matched to the single
centroid (the second overwrites the first match) and no new centroid is
spawned, where the claim requires the second point to be treated as unmatched
and to spawn a brand-new centroid. matchedIds records centroid 0 twice. -/
theorem c3_double_claim_eval :
    matchedIds "b" 300
        {next := 1, items := [(0, {ID := 0, Point := {X := 0, Y := 0}, goneCount := 0})]}
        [{X := 0, Y := 10}, {X := 0, Y := 20}] = [0, 0] ∧
    CentroidMap.Update "b" 300 30
        {next := 1, items := [(0, {ID := 0, Point := {X := 0, Y := 0}, goneCount := 0})]}
        [{X := 0, Y := 10}, {X := 0, Y := 20}] =
      {next := 1, items := [(0, {ID := 0, Point := {X := 0, Y := 20}, goneCount := 0})]} := by
  constructor
  · decide
  · decide

/-! ## Claim C6 -/

lemma closestAcc_ne_of_gated (entrance : String) (p : Point) (id : Nat) :
    ∀ (items : List (Nat × Centroid)) (acc : Option (Nat × Int)),
      (∀ kv ∈ items, kv.1 = id → gatedOut entrance kv.2 p = true) →
      (∀ r0 ∈ acc, r0.1 ≠ id) →
      ∀ r ∈ closestAcc entrance p items acc, r.1 ≠ id := by
  intro items
  induction items with
  | nil =>
    intro acc hg hacc r hr
    exact hacc r hr
  | cons kv rest ih =>
    intro acc hg hacc r hr
    have hgr : ∀ kv0 ∈ rest, kv0.1 = id → gatedOut entrance kv0.2 p = true :=
      fun kv0 hm => hg kv0 (by simp [hm])
    by_cases hgate : gatedOut entrance kv.2 p = true
    · simp only [closestAcc] at hr
      rw [if_pos hgate] at hr
      exact ih acc hgr hacc r hr
    · have hk : kv.1 ≠ id := fun he => hgate (hg kv (by simp) he)
      have hnew : ∀ d : Int, ∀ r0 ∈ some (kv.1, d), (r0 : Nat × Int).1 ≠ id := by
        intro d r0 hr0
        rw [Option.mem_def] at hr0
        injection hr0 with h0
        rw [← h0]
        exact hk
      cases acc with
      | none =>
        simp only [closestAcc] at hr
        rw [if_neg hgate] at hr
        exact ih _ hgr (hnew _) r hr
      | some best =>
        simp only [closestAcc] at hr
        rw [if_neg hgate] at hr
        by_cases hlt : dist2 kv.2.Point p < best.2
        · rw [if_pos hlt] at hr
          exact ih _ hgr (hnew _) r hr
        · rw [if_neg hlt] at hr
          have hbest : ∀ r0 ∈ some best, (r0 : Nat × Int).1 ≠ id := by
            intro r0 hr0
            rw [Option.mem_def] at hr0
            injection hr0 with h0
            rw [← h0]
            exact hacc best rfl
          exact ih _ hgr hbest r hr

/-- Claim C6: in ClosestDist, gating disqualifies a candidate before any
distance comparison. Under a top or bottom boundary a centroid whose X differs
from the point X by more than 50 pixels is never the returned closest match,
whatever its Euclidean distance; under a left or right boundary the same holds
for a Y deviation of more than 70 pixels. -/
theorem c6_gating (entrance : String) (cm : CentroidMap) (p : Point) (id : Nat) :
    (entBT entrance = true →
      (∀ kv ∈ cm.items, kv.1 = id → 50 < (kv.2.Point.X - p.X).natAbs) →
      (CentroidMap.ClosestDist entrance cm p).map Prod.fst ≠ some id) ∧
    (entLR entrance = true →
      (∀ kv ∈ cm.items, kv.1 = id → 70 < (kv.2.Point.Y - p.Y).natAbs) →
      (CentroidMap.ClosestDist entrance cm p).map Prod.fst ≠ some id) := by
  constructor
  · intro hbt hfar hcontra
    cases hr : CentroidMap.ClosestDist entrance cm p with
    | none =>
      rw [hr] at hcontra
      simp at hcontra
    | some r =>
      rw [hr] at hcontra
      simp at hcontra
      refine closestAcc_ne_of_gated entrance p id cm.items none ?_ (by simp) r ?_ hcontra
      · intro kv hm hk
        have h50 := hfar kv hm hk
        have hx : (decide (kv.2.Point.X < p.X - 50) || decide (p.X + 50 < kv.2.Point.X)) = true := by
          simp only [Bool.or_eq_true, decide_eq_true_eq]
          omega
        simp [gatedOut, hbt, hx]
      · exact Option.mem_def.mpr hr
  · intro hlr hfar hcontra
    cases hr : CentroidMap.ClosestDist entrance cm p with
    | none =>
      rw [hr] at hcontra
      simp at hcontra
    | some r =>
      rw [hr] at hcontra
      simp at hcontra
      refine closestAcc_ne_of_gated entrance p id cm.items none ?_ (by simp) r ?_ hcontra
      · intro kv hm hk
        have h70 := hfar kv hm hk
        have hy : (decide (kv.2.Point.Y < p.Y - 70) || decide (p.Y + 70 < kv.2.Point.Y)) = true := by
          simp only [Bool.or_eq_true, decide_eq_true_eq]
          omega
        simp [gatedOut, hlr, hy]
      · exact Option.mem_def.mpr hr

/-- Witness for claim C6: with the bottom boundary, a lone centroid 100 pixels
away in X from the query point is never returned as the closest match. -/
theorem c6_gating_witness :
    entBT "b" = true ∧
    (CentroidMap.ClosestDist "b"
        {next := 1, items := [(0, {ID := 0, Point := {X := 100, Y := 0}, goneCount := 0})]}
        {X := 0, Y := 0}).map Prod.fst ≠ some 0 :=
  ⟨by decide,
   (c6_gating "b" {next := 1, items := [(0, {ID := 0, Point := {X := 100, Y := 0}, goneCount := 0})]}
     {X := 0, Y := 0} 0).1 (by decide) (by decide)⟩

/-! ## Claim C7 -/

/-- Claim C7: every detection box that survives the containment and
minimum-size filters emits the center of the possibly clipped box, and the
clipping is exactly the rule the claim words: an oversized side shrinks to the
ceiling when origin plus ceiling still fits inside the frame, and to the
remaining frame space otherwise (for a surviving contained box the ceiling
always fits, so both readings agree with the code). The second conjunct places
the emitted point inside the output of extractCenterPoints. -/
theorem c7_clipped_center (cols rows : Int) (r : Rect) (rs1 rs2 : List Rect)
    (hIn : r.In {Min := {X := 0, Y := 0}, Max := {X := cols, Y := rows}} = true)
    (hw : 80 ≤ r.Size.X) (hh : 50 ≤ r.Size.Y) :
    processRect cols rows r = some (claimC7Center cols rows r) ∧
    extractCenterPoints (rs1 ++ r :: rs2) cols rows =
      extractCenterPoints rs1 cols rows ++
        claimC7Center cols rows r :: extractCenterPoints rs2 cols rows := by
  have hsx : 80 ≤ r.Max.X - r.Min.X := by simpa [Rect.Size] using hw
  have hsy : 50 ≤ r.Max.Y - r.Min.Y := by simpa [Rect.Size] using hh
  have hne : r.Empty = false := by
    simp only [Rect.Empty, Bool.or_eq_false_iff, decide_eq_false_iff_not, not_le]
    omega
  have hbounds : 0 ≤ r.Min.X ∧ r.Max.X ≤ cols ∧ 0 ≤ r.Min.Y ∧ r.Max.Y ≤ rows := by
    have hIn2 := hIn
    rw [Rect.In, hne] at hIn2
    simp only [Bool.false_eq_true, if_false, Bool.and_eq_true, decide_eq_true_eq] at hIn2
    tauto
  obtain ⟨hx0, hxc, hy0, hyc⟩ := hbounds
  have hwidth : (if 200 < r.Size.X then (if r.Min.X + 200 < cols then (200 : Int) else r.Size.X)
      else (if cols < r.Min.X + r.Size.X then cols - r.Min.X else r.Size.X)) =
      (if 200 < r.Size.X then (if r.Min.X + 200 < cols then (200 : Int) else cols - r.Min.X)
       else r.Size.X) := by
    simp only [Rect.Size] at *
    split_ifs <;> omega
  have hheight : (if 350 < r.Size.Y then (if r.Min.Y + 350 < rows then (350 : Int) else r.Size.Y)
      else (if rows < r.Min.Y + r.Size.Y then rows - r.Min.Y else r.Size.Y)) =
      (if 350 < r.Size.Y then (if r.Min.Y + 350 < rows then (350 : Int) else rows - r.Min.Y)
       else r.Size.Y) := by
    simp only [Rect.Size] at *
    split_ifs <;> omega
  have hguard : ¬(r.Size.X < 80 ∨ r.Size.Y < 50) := by
    push_neg
    exact ⟨hw, hh⟩
  have hmain : processRect cols rows r = some (claimC7Center cols rows r) := by
    rw [processRect, hIn]
    simp only [Bool.not_true, Bool.false_eq_true, if_false]
    rw [if_neg hguard]
    rw [claimC7Center]
    rw [hwidth, hheight]
  refine ⟨hmain, ?_⟩
  simp [extractCenterPoints, List.filterMap_append, List.filterMap_cons, hmain]

/-- Witness for claim C7: a contained 300 by 400 box in a 1000 by 800 frame is
clipped to 200 by 350 and emits the center (100, 175). -/
theorem c7_clipped_center_witness :
    (Rect.In {Min := {X := 0, Y := 0}, Max := {X := 300, Y := 400}}
       {Min := {X := 0, Y := 0}, Max := {X := 1000, Y := 800}} = true) ∧
    processRect 1000 800 {Min := {X := 0, Y := 0}, Max := {X := 300, Y := 400}} =
      some (claimC7Center 1000 800 {Min := {X := 0, Y := 0}, Max := {X := 300, Y := 400}}) :=
  ⟨by decide,
   (c7_clipped_center 1000 800 {Min := {X := 0, Y := 0}, Max := {X := 300, Y := 400}} [] []
     (by decide) (by decide) (by decide)).1⟩

/-! ## Claim C10 -/

lemma direction_entrance_congr (e1 e2 : String)
    (h1 : entLR e1 = entLR e2) (h2 : entBT e1 = entBT e2) :
    ∀ (car : Car) (p : Point), Car.Direction e1 car p = Car.Direction e2 car p := by
  intro car p
  have ha : axisTerm e1 = axisTerm e2 := by
    funext q
    simp only [axisTerm, h1, h2]
  simp only [Car.Direction, Car.MeanMovement, ha, h1, h2]

lemma closestAcc_entrance_congr (e1 e2 : String)
    (h1 : entLR e1 = entLR e2) (h2 : entBT e1 = entBT e2) (p : Point) :
    ∀ (items : List (Nat × Centroid)) (acc : Option (Nat × Int)),
      closestAcc e1 p items acc = closestAcc e2 p items acc := by
  intro items
  induction items with
  | nil => intro acc; rfl
  | cons kv rest ih =>
    intro acc
    have hg : gatedOut e1 kv.2 p = gatedOut e2 kv.2 p := by
      simp only [gatedOut, h1, h2]
    cases acc with
    | none =>
      simp only [closestAcc, hg]
      by_cases hb : gatedOut e2 kv.2 p = true
      · rw [if_pos hb, if_pos hb]
        exact ih none
      · rw [if_neg hb, if_neg hb]
        exact ih _
    | some best =>
      simp only [closestAcc, hg]
      by_cases hb : gatedOut e2 kv.2 p = true
      · rw [if_pos hb, if_pos hb]
        exact ih _
      · rw [if_neg hb, if_neg hb]
        by_cases hlt : dist2 kv.2.Point p < best.2
        · rw [if_pos hlt, if_pos hlt]
          exact ih _
        · rw [if_neg hlt, if_neg hlt]
          exact ih _

/-- Claim C10: the Zone Counter switch is case sensitive while gating and
direction inference use strings.EqualFold. For an entrance string that lowers
to one of t, b, l, r but is not exactly that lowercase string, direction
inference and closest-centroid search behave exactly as for the lowercase
value, yet every Zone Counter update changes neither counter, never flags a
car counted, keeps every uncounted car (gone or not), and removes only cars
that are both counted and gone. -/
theorem c10_case_sensitivity (entrance : String)
    (hlow : entrance.data.map Char.toLower = ['t'] ∨ entrance.data.map Char.toLower = ['b'] ∨
      entrance.data.map Char.toLower = ['l'] ∨ entrance.data.map Char.toLower = ['r'])
    (hne : ¬(entrance = "t" ∨ entrance = "b" ∨ entrance = "l" ∨ entrance = "r")) :
    (∀ (car : Car) (p : Point),
      Car.Direction entrance car p =
        Car.Direction (String.mk (entrance.data.map Char.toLower)) car p) ∧
    (∀ (cm : CentroidMap) (p : Point),
      CentroidMap.ClosestDist entrance cm p =
        CentroidMap.ClosestDist (String.mk (entrance.data.map Char.toLower)) cm p) ∧
    (∀ car : Car, plUpdateCar entrance car =
      {dIn := 0, dOut := 0, keep := !(car.counted && car.gone), car := car}) ∧
    (∀ (lot : ParkingLot) (cars : CarMap), (ParkingLot.Update entrance lot cars).1 = lot) := by
  push_neg at hne
  obtain ⟨hnt, hnb, hnl, hnr⟩ := hne
  have hcar : ∀ car : Car, plUpdateCar entrance car =
      {dIn := 0, dOut := 0, keep := !(car.counted && car.gone), car := car} := by
    intro car
    rcases car with ⟨cid, tra, dir, cnt, gn⟩
    cases cnt <;> cases gn <;> simp [plUpdateCar, hnt, hnb, hnl, hnr]
  have hfold : ∀ s, eqFold entrance s = eqFold (String.mk (entrance.data.map Char.toLower)) s := by
    intro s
    rcases hlow with h | h | h | h <;> simp only [eqFold] <;> rw [h] <;> rfl
  have hLR : entLR entrance = entLR (String.mk (entrance.data.map Char.toLower)) := by
    rw [entLR, entLR, hfold, hfold]
  have hBT : entBT entrance = entBT (String.mk (entrance.data.map Char.toLower)) := by
    rw [entBT, entBT, hfold, hfold]
  refine ⟨direction_entrance_congr _ _ hLR hBT, ?_, hcar, ?_⟩
  · intro cmx p
    simp only [CentroidMap.ClosestDist]
    exact closestAcc_entrance_congr _ _ hLR hBT p cmx.items none
  · intro lot cars
    rw [ParkingLot.Update, plUpdateList_spec]
    have hz1 : (cars.map (fun kv => (plUpdateCar entrance kv.2).dIn)).sum = 0 := by
      apply List.sum_eq_zero
      intro x hx
      obtain ⟨kv, hm, he⟩ := List.mem_map.mp hx
      rw [← he, hcar kv.2]
    have hz2 : (cars.map (fun kv => (plUpdateCar entrance kv.2).dOut)).sum = 0 := by
      apply List.sum_eq_zero
      intro x hx
      obtain ⟨kv, hm, he⟩ := List.mem_map.mp hx
      rw [← he, hcar kv.2]
    rcases lot with ⟨li, lo⟩
    simp [hz1, hz2]

/-- Witness for claim C10 at entrance B: an uncounted gone car moving DOWN
(the outbound direction of the lowercase boundary b) is kept and neither
counter moves, although gating and direction behave as for b. -/
theorem c10_case_sensitivity_witness :
    ("B".data.map Char.toLower = ['b']) ∧
    plUpdateCar "B" {ID := 3, Traject := [], Dir := Direction.DOWN, counted := false, gone := true} =
      {dIn := 0, dOut := 0, keep := true,
       car := {ID := 3, Traject := [], Dir := Direction.DOWN, counted := false, gone := true}} :=
  ⟨by decide, by
    rw [(c10_case_sensitivity "B" (Or.inr (Or.inl (by decide))) (by decide)).2.2.1]
    rfl⟩

/-! ## CentroidMap.Update lemmas -/

lemma keys_setPointReset (l : List (Nat × Centroid)) (id : Nat) (p : Point) :
    keys (setPointReset l id p) = keys l := keys_mapEntry l id _

lemma phase1Step_updated_extends (entrance : String) (maxDist : Int) (st : Phase1St)
    (ip : Nat × Point) :
    ∃ ext, (phase1Step entrance maxDist st ip).updated = st.updated ++ ext := by
  cases hcl : closestAcc entrance ip.2 st.items none with
  | none => exact ⟨[], by simp [phase1Step, hcl]⟩
  | some best =>
    by_cases hc : (distGtMax best.2 maxDist || decide (ip.1 ∈ st.mapped)) = true
    · exact ⟨[], by simp [phase1Step, hcl, hc]⟩
    · exact ⟨[best.1], by simp [phase1Step, hcl, hc]⟩

lemma phase1Run_updated_extends (entrance : String) (maxDist : Int) :
    ∀ (ips : List (Nat × Point)) (st : Phase1St),
      ∃ ext, (phase1Run entrance maxDist ips st).updated = st.updated ++ ext := by
  intro ips
  induction ips with
  | nil =>
    intro st
    exact ⟨[], by simp [phase1Run]⟩
  | cons ip rest ih =>
    intro st
    obtain ⟨ext0, h0⟩ := phase1Step_updated_extends entrance maxDist st ip
    obtain ⟨ext1, h1⟩ := ih (phase1Step entrance maxDist st ip)
    refine ⟨ext0 ++ ext1, ?_⟩
    simp only [phase1Run]
    rw [h1, h0, List.append_assoc]

lemma keys_phase1Step_items (entrance : String) (maxDist : Int) (st : Phase1St)
    (ip : Nat × Point) : keys (phase1Step entrance maxDist st ip).items = keys st.items := by
  cases hcl : closestAcc entrance ip.2 st.items none with
  | none => simp [phase1Step, hcl]
  | some best =>
    by_cases hc : (distGtMax best.2 maxDist || decide (ip.1 ∈ st.mapped)) = true
    · simp [phase1Step, hcl, hc]
    · simp [phase1Step, hcl, hc, setPointReset, keys_mapEntry]

lemma keys_phase1Run_items (entrance : String) (maxDist : Int) :
    ∀ (ips : List (Nat × Point)) (st : Phase1St),
      keys (phase1Run entrance maxDist ips st).items = keys st.items := by
  intro ips
  induction ips with
  | nil => intro st; rfl
  | cons ip rest ih =>
    intro st
    simp only [phase1Run]
    rw [ih, keys_phase1Step_items]

lemma mem_phase1Step_items {entrance : String} {maxDist : Int} {st : Phase1St}
    {ip : Nat × Point} {kv2 : Nat × Centroid}
    (h : kv2 ∈ (phase1Step entrance maxDist st ip).items) :
    ∃ kv ∈ st.items, kv2.1 = kv.1 ∧ kv2.2.ID = kv.2.ID := by
  revert h
  cases hcl : closestAcc entrance ip.2 st.items none with
  | none =>
    intro h
    simp only [phase1Step, hcl] at h
    exact ⟨kv2, h, rfl, rfl⟩
  | some best =>
    by_cases hc : (distGtMax best.2 maxDist || decide (ip.1 ∈ st.mapped)) = true
    · intro h
      simp only [phase1Step, hcl, hc, if_pos] at h
      exact ⟨kv2, h, rfl, rfl⟩
    · intro h
      simp only [phase1Step, hcl, if_neg hc] at h
      obtain ⟨kv, hm, he, hval⟩ := mem_mapEntry h
      rcases hval with hv | ⟨hk2, hv⟩
      · exact ⟨kv, hm, he, by rw [hv]⟩
      · exact ⟨kv, hm, he, by rw [hv]⟩

lemma mem_phase1Run_items (entrance : String) (maxDist : Int) :
    ∀ (ips : List (Nat × Point)) (st : Phase1St) (kv2 : Nat × Centroid),
      kv2 ∈ (phase1Run entrance maxDist ips st).items →
      ∃ kv ∈ st.items, kv2.1 = kv.1 ∧ kv2.2.ID = kv.2.ID := by
  intro ips
  induction ips with
  | nil =>
    intro st kv2 h
    exact ⟨kv2, h, rfl, rfl⟩
  | cons ip rest ih =>
    intro st kv2 h
    simp only [phase1Run] at h
    obtain ⟨kv1, hm1, he1, hid1⟩ := ih _ kv2 h
    obtain ⟨kv0, hm0, he0, hid0⟩ := mem_phase1Step_items hm1
    exact ⟨kv0, hm0, he1.trans he0, hid1.trans hid0⟩

lemma lookupId_phase1Run_not_updated (entrance : String) (maxDist : Int) (id : Nat) :
    ∀ (ips : List (Nat × Point)) (st : Phase1St),
      id ∉ (phase1Run entrance maxDist ips st).updated →
      lookupId (phase1Run entrance maxDist ips st).items id = lookupId st.items id := by
  intro ips
  induction ips with
  | nil =>
    intro st h
    rfl
  | cons ip rest ih =>
    intro st h
    simp only [phase1Run] at h ⊢
    have hstep : lookupId (phase1Step entrance maxDist st ip).items id =
        lookupId st.items id := by
      cases hcl : closestAcc entrance ip.2 st.items none with
      | none => simp [phase1Step, hcl]
      | some best =>
        by_cases hc : (distGtMax best.2 maxDist || decide (ip.1 ∈ st.mapped)) = true
        · simp [phase1Step, hcl, hc]
        · have hbm : best.1 ∈ (phase1Run entrance maxDist rest
              (phase1Step entrance maxDist st ip)).updated := by
            obtain ⟨ext, hext⟩ := phase1Run_updated_extends entrance maxDist rest
              (phase1Step entrance maxDist st ip)
            rw [hext]
            simp [phase1Step, hcl, hc]
          have hne2 : best.1 ≠ id := fun he => h (he ▸ hbm)
          simp only [phase1Step, hcl, if_neg hc]
          exact lookupId_mapEntry_ne _ _ hne2
    rw [ih _ h, hstep]

lemma keys_ageUnmatched_sublist (maxGone : Nat) (updated : List Nat) :
    ∀ l : List (Nat × Centroid),
      List.Sublist (keys (ageUnmatched maxGone updated l)) (keys l) := by
  intro l
  induction l with
  | nil => simp [ageUnmatched, keys]
  | cons kv rest ih =>
    simp only [ageUnmatched, List.filterMap_cons] at *
    by_cases hu : kv.1 ∈ updated
    · rw [if_pos hu]
      simpa [keys] using ih.cons₂ kv.1
    · rw [if_neg hu]
      cases hac : ageC maxGone kv.2 with
      | none =>
        simp only [ageEntry, hac, Option.map]
        simpa [keys] using ih.cons kv.1
      | some c2 =>
        simp only [ageEntry, hac, Option.map]
        simpa [keys] using ih.cons₂ kv.1

lemma mem_ageUnmatched {maxGone : Nat} {updated : List Nat} {l : List (Nat × Centroid)}
    {kv2 : Nat × Centroid} (h : kv2 ∈ ageUnmatched maxGone updated l) :
    ∃ kv ∈ l, kv2.1 = kv.1 ∧ kv2.2.ID = kv.2.ID := by
  induction l with
  | nil => simp [ageUnmatched] at h
  | cons kv rest ih =>
    simp only [ageUnmatched, List.filterMap_cons] at h
    by_cases hu : kv.1 ∈ updated
    · rw [if_pos hu] at h
      rcases List.mem_cons.mp h with he | hr
      · exact ⟨kv, by simp, by rw [he], by rw [he]⟩
      · obtain ⟨kv0, hm, hp⟩ := ih hr
        exact ⟨kv0, by simp [hm], hp⟩
    · rw [if_neg hu] at h
      cases hac : ageC maxGone kv.2 with
      | none =>
        have hae : ageEntry maxGone kv = none := by simp [ageEntry, hac]
        rw [hae] at h
        obtain ⟨kv0, hm, hp⟩ := ih h
        exact ⟨kv0, by simp [hm], hp⟩
      | some c2 =>
        have hae : ageEntry maxGone kv = some (kv.1, c2) := by simp [ageEntry, hac]
        rw [hae] at h
        rcases List.mem_cons.mp h with he | hr
        · have hid2 : c2.ID = kv.2.ID := by
            revert hac
            rw [ageC]
            by_cases hg : kv.2.goneCount + 1 > maxGone
            · rw [if_pos hg]
              intro hx
              cases hx
            · rw [if_neg hg]
              intro hx
              injection hx with hx2
              rw [← hx2]
          exact ⟨kv, by simp, by rw [he], by rw [he]; exact hid2⟩
        · obtain ⟨kv0, hm, hp⟩ := ih hr
          exact ⟨kv0, by simp [hm], hp⟩

lemma ageUnmatched_cons (maxGone : Nat) (updated : List Nat) (kv : Nat × Centroid)
    (rest : List (Nat × Centroid)) :
    ageUnmatched maxGone updated (kv :: rest) =
      match (if kv.1 ∈ updated then some kv else ageEntry maxGone kv) with
      | none => ageUnmatched maxGone updated rest
      | some x => x :: ageUnmatched maxGone updated rest := by
  cases h : (if kv.1 ∈ updated then some kv else ageEntry maxGone kv) with
  | none => simp only [ageUnmatched, List.filterMap_cons, h]
  | some x => simp only [ageUnmatched, List.filterMap_cons, h]

lemma lookupId_ageUnmatched (maxGone : Nat) (updated : List Nat) (id : Nat) :
    ∀ l : List (Nat × Centroid), (keys l).Nodup →
      lookupId (ageUnmatched maxGone updated l) id =
        match lookupId l id with
        | none => none
        | some c => if id ∈ updated then some c else ageC maxGone c := by
  intro l
  induction l with
  | nil =>
    intro h
    simp [ageUnmatched, lookupId]
  | cons kv rest ih =>
    intro hnd
    simp only [keys, List.map_cons, List.nodup_cons] at hnd
    have hndr : (keys rest).Nodup := hnd.2
    rw [ageUnmatched_cons]
    by_cases hk : kv.1 = id
    · subst hk
      have hrest : lookupId (ageUnmatched maxGone updated rest) kv.1 = none := by
        rw [lookupId_eq_none_iff]
        intro hmem
        have hk1 : kv.1 ∉ keys rest := by simpa [keys] using hnd.1
        exact hk1 ((keys_ageUnmatched_sublist maxGone updated rest).subset hmem)
      by_cases hu : kv.1 ∈ updated
      · rw [if_pos hu]
        simp [lookupId, hu]
      · rw [if_neg hu]
        cases hac : ageC maxGone kv.2 with
        | none =>
          have hae : ageEntry maxGone kv = none := by simp [ageEntry, hac]
          rw [hae]
          simp [lookupId, hu, hac, hrest]
        | some c2 =>
          have hae : ageEntry maxGone kv = some (kv.1, c2) := by simp [ageEntry, hac]
          rw [hae]
          simp [lookupId, hu, hac]
    · by_cases hu : kv.1 ∈ updated
      · rw [if_pos hu]
        simp [lookupId, hk, ih hndr]
      · rw [if_neg hu]
        cases hac : ageC maxGone kv.2 with
        | none =>
          have hae : ageEntry maxGone kv = none := by simp [ageEntry, hac]
          rw [hae]
          simp [lookupId, hk, ih hndr]
        | some c2 =>
          have hae : ageEntry maxGone kv = some (kv.1, c2) := by simp [ageEntry, hac]
          rw [hae]
          simp [lookupId, hk, ih hndr]

lemma ageItems_eq (maxGone : Nat) (l : List (Nat × Centroid)) :
    ageItems maxGone l = ageUnmatched maxGone [] l := by
  unfold ageItems ageUnmatched
  congr 1

/-- The three structural facts every centroid map the program builds enjoys:
no duplicate identifiers, every identifier below the freshness counter, and
every entry keyed by its own ID field. -/
def CInv (cm : CentroidMap) : Prop :=
  (keys cm.items).Nodup ∧ (∀ kv ∈ cm.items, kv.1 < cm.next) ∧
    (∀ kv ∈ cm.items, kv.1 = kv.2.ID)

lemma cinv_add (cm : CentroidMap) (p : Point) (h : CInv cm) : CInv (CentroidMap.Add cm p) := by
  obtain ⟨h1, h2, h3⟩ := h
  have hnm : cm.next ∉ keys cm.items := by
    intro hmem
    simp only [keys, List.mem_map] at hmem
    obtain ⟨kv, hkv, he⟩ := hmem
    have := h2 kv hkv
    omega
  refine ⟨?_, ?_, ?_⟩
  · simp only [CentroidMap.Add, keys, List.map_append, List.map_cons, List.map_nil]
    rw [List.nodup_append]
    refine ⟨h1, List.nodup_singleton _, ?_⟩
    intro a ha hb
    simp only [List.mem_singleton] at hb
    subst hb
    exact hnm ha
  · intro kv hm
    simp only [CentroidMap.Add, List.mem_append, List.mem_singleton] at hm
    rcases hm with hm | hm
    · have := h2 kv hm
      simp only [CentroidMap.Add]
      omega
    · subst hm
      simp [CentroidMap.Add]
  · intro kv hm
    simp only [CentroidMap.Add, List.mem_append, List.mem_singleton] at hm
    rcases hm with hm | hm
    · exact h3 kv hm
    · subst hm
      rfl

lemma lookupId_add (cm : CentroidMap) (p : Point) {id : Nat} (h : id < cm.next) :
    lookupId (CentroidMap.Add cm p).items id = lookupId cm.items id := by
  simp only [CentroidMap.Add]
  rw [lookupId_append]
  cases hl : lookupId cm.items id with
  | some c => rfl
  | none =>
    have hne : cm.next ≠ id := by omega
    simp [lookupId, hne]

lemma addAll_next_mono :
    ∀ (ps : List Point) (cm : CentroidMap), cm.next ≤ (addAll cm ps).next := by
  intro ps
  induction ps with
  | nil =>
    intro cm
    exact le_refl _
  | cons p rest ih =>
    intro cm
    simp only [addAll]
    exact le_trans (by simp [CentroidMap.Add]) (ih _)

lemma lookupId_addAll {id : Nat} :
    ∀ (ps : List Point) (cm : CentroidMap), id < cm.next →
      lookupId (addAll cm ps).items id = lookupId cm.items id := by
  intro ps
  induction ps with
  | nil =>
    intro cm h
    rfl
  | cons p rest ih =>
    intro cm h
    simp only [addAll]
    rw [ih _ (by simp only [CentroidMap.Add]; omega), lookupId_add cm p h]

lemma cinv_addAll :
    ∀ (ps : List Point) (cm : CentroidMap), CInv cm → CInv (addAll cm ps) := by
  intro ps
  induction ps with
  | nil =>
    intro cm h
    exact h
  | cons p rest ih =>
    intro cm h
    simp only [addAll]
    exact ih _ (cinv_add cm p h)

lemma addUnmapped_next_mono (mapped : List Nat) :
    ∀ (ips : List (Nat × Point)) (cm : CentroidMap), cm.next ≤ (addUnmapped mapped cm ips).next := by
  intro ips
  induction ips with
  | nil =>
    intro cm
    exact le_refl _
  | cons ip rest ih =>
    intro cm
    simp only [addUnmapped]
    by_cases hm : ip.1 ∈ mapped
    · rw [if_pos hm]
      exact ih cm
    · rw [if_neg hm]
      exact le_trans (by simp [CentroidMap.Add]) (ih _)

lemma lookupId_addUnmapped (mapped : List Nat) {id : Nat} :
    ∀ (ips : List (Nat × Point)) (cm : CentroidMap), id < cm.next →
      lookupId (addUnmapped mapped cm ips).items id = lookupId cm.items id := by
  intro ips
  induction ips with
  | nil =>
    intro cm h
    rfl
  | cons ip rest ih =>
    intro cm h
    simp only [addUnmapped]
    by_cases hm : ip.1 ∈ mapped
    · rw [if_pos hm]
      exact ih cm h
    · rw [if_neg hm]
      rw [ih _ (by simp only [CentroidMap.Add]; omega), lookupId_add cm ip.2 h]

lemma cinv_addUnmapped (mapped : List Nat) :
    ∀ (ips : List (Nat × Point)) (cm : CentroidMap), CInv cm → CInv (addUnmapped mapped cm ips) := by
  intro ips
  induction ips with
  | nil =>
    intro cm h
    exact h
  | cons ip rest ih =>
    intro cm h
    simp only [addUnmapped]
    by_cases hm : ip.1 ∈ mapped
    · rw [if_pos hm]
      exact ih cm h
    · rw [if_neg hm]
      exact ih _ (cinv_add cm ip.2 h)

lemma centUpdate_next_mono (entrance : String) (maxDist : Int) (maxGone : Nat)
    (cm : CentroidMap) (ps : List Point) :
    cm.next ≤ (CentroidMap.Update entrance maxDist maxGone cm ps).next := by
  by_cases hp : ps.length = 0
  · simp only [CentroidMap.Update, if_pos hp]
    exact le_refl _
  · by_cases hcm : cm.items.length = 0
    · simp only [CentroidMap.Update, if_neg hp, if_pos hcm]
      exact addAll_next_mono ps cm
    · simp only [CentroidMap.Update, if_neg hp, if_neg hcm]
      refine le_trans ?_ (addUnmapped_next_mono _ _ _)
      exact le_refl _

lemma cinv_centUpdate (entrance : String) (maxDist : Int) (maxGone : Nat)
    (cm : CentroidMap) (ps : List Point) (h : CInv cm) :
    CInv (CentroidMap.Update entrance maxDist maxGone cm ps) := by
  obtain ⟨h1, h2, h3⟩ := h
  by_cases hp : ps.length = 0
  · simp only [CentroidMap.Update, if_pos hp]
    rw [ageItems_eq]
    refine ⟨?_, ?_, ?_⟩
    · exact List.Nodup.sublist (keys_ageUnmatched_sublist maxGone [] cm.items) h1
    · intro kv hm
      obtain ⟨kv0, hm0, he, _⟩ := mem_ageUnmatched hm
      have := h2 kv0 hm0
      show kv.1 < cm.next
      omega
    · intro kv hm
      obtain ⟨kv0, hm0, he, hid⟩ := mem_ageUnmatched hm
      rw [he, hid]
      exact h3 kv0 hm0
  · by_cases hcm : cm.items.length = 0
    · simp only [CentroidMap.Update, if_neg hp, if_pos hcm]
      exact cinv_addAll ps cm ⟨h1, h2, h3⟩
    · simp only [CentroidMap.Update, if_neg hp, if_neg hcm]
      refine cinv_addUnmapped _ _ _ ?_
      refine ⟨?_, ?_, ?_⟩
      · refine List.Nodup.sublist (keys_ageUnmatched_sublist _ _ _) ?_
        rw [keys_phase1Run_items]
        exact h1
      · intro kv hm
        obtain ⟨kv1, hm1, he1, _⟩ := mem_ageUnmatched hm
        obtain ⟨kv0, hm0, he0, _⟩ := mem_phase1Run_items entrance maxDist _ _ kv1 hm1
        have := h2 kv0 hm0
        show kv.1 < cm.next
        omega
      · intro kv hm
        obtain ⟨kv1, hm1, he1, hid1⟩ := mem_ageUnmatched hm
        obtain ⟨kv0, hm0, he0, hid0⟩ := mem_phase1Run_items entrance maxDist _ _ kv1 hm1
        rw [he1, he0, hid1, hid0]
        exact h3 kv0 hm0

lemma lookupId_centUpdate_absent (entrance : String) (maxDist : Int) (maxGone : Nat)
    (cm : CentroidMap) (ps : List Point) {id : Nat}
    (hlt : id < cm.next) (habs : lookupId cm.items id = none) :
    lookupId (CentroidMap.Update entrance maxDist maxGone cm ps).items id = none := by
  have hnk : id ∉ keys cm.items := (lookupId_eq_none_iff _ _).mp habs
  by_cases hp : ps.length = 0
  · simp only [CentroidMap.Update, if_pos hp]
    rw [ageItems_eq, lookupId_eq_none_iff]
    intro hmem
    exact hnk ((keys_ageUnmatched_sublist maxGone [] cm.items).subset hmem)
  · by_cases hcm : cm.items.length = 0
    · simp only [CentroidMap.Update, if_neg hp, if_pos hcm]
      rw [lookupId_addAll ps cm hlt]
      exact habs
    · simp only [CentroidMap.Update, if_neg hp, if_neg hcm]
      set st := phase1Run entrance maxDist ps.enum
        {items := cm.items, mapped := [], updated := []} with hst
      set cmi : CentroidMap := {next := cm.next, items := ageUnmatched maxGone st.updated st.items}
        with hcmi
      have hlt2 : id < cmi.next := by
        rw [hcmi]
        exact hlt
      rw [lookupId_addUnmapped _ _ _ hlt2]
      rw [lookupId_eq_none_iff]
      intro hmem
      rw [hcmi] at hmem
      have hmem2 := (keys_ageUnmatched_sublist _ _ _).subset hmem
      rw [hst, keys_phase1Run_items] at hmem2
      exact hnk hmem2

lemma lookupId_centUpdate_unmatched (entrance : String) (maxDist : Int) (maxGone : Nat)
    (cm : CentroidMap) (ps : List Point) {id : Nat} {c : Centroid}
    (hinv : CInv cm) (hc : lookupId cm.items id = some c)
    (hun : id ∉ matchedIds entrance maxDist cm ps) :
    lookupId (CentroidMap.Update entrance maxDist maxGone cm ps).items id =
      if c.goneCount + 1 > maxGone then none
      else some {c with goneCount := c.goneCount + 1} := by
  obtain ⟨h1, h2, h3⟩ := hinv
  have hid_lt : id < cm.next := h2 (id, c) (mem_of_lookupId hc)
  by_cases hp : ps.length = 0
  · simp only [CentroidMap.Update, if_pos hp]
    rw [ageItems_eq]
    rw [lookupId_ageUnmatched maxGone [] id cm.items h1, hc]
    simp [ageC]
  · by_cases hcm : cm.items.length = 0
    · rw [List.length_eq_zero] at hcm
      rw [hcm] at hc
      simp [lookupId] at hc
    · simp only [CentroidMap.Update, if_neg hp, if_neg hcm]
      set st := phase1Run entrance maxDist ps.enum
        {items := cm.items, mapped := [], updated := []} with hst
      have hun2 : id ∉ st.updated := by
        rw [hst]
        simpa [matchedIds, hp, hcm] using hun
      set cmi : CentroidMap := {next := cm.next, items := ageUnmatched maxGone st.updated st.items}
        with hcmi
      have hlt2 : id < cmi.next := by
        rw [hcmi]
        exact hid_lt
      rw [lookupId_addUnmapped _ _ _ hlt2]
      have hnd2 : (keys st.items).Nodup := by
        rw [hst, keys_phase1Run_items]
        exact h1
      rw [hcmi]
      rw [lookupId_ageUnmatched maxGone _ id _ hnd2]
      rw [hst]
      rw [lookupId_phase1Run_not_updated entrance maxDist id ps.enum _ (hst ▸ hun2), hc]
      simp [hun2, ageC]

/-! ## Claim C5 -/

/-- A run of CentroidMap.Update over successive per-frame point lists. -/
def runCent (entrance : String) (maxDist : Int) (maxGone : Nat) :
    CentroidMap → List (List Point) → CentroidMap
  | cm, [] => cm
  | cm, ps :: rest =>
    runCent entrance maxDist maxGone
      (CentroidMap.Update entrance maxDist maxGone cm ps) rest

/-- The centroid id has its position written by no point of any update in the
sequence (it also covers empty point lists, whose matchedIds is empty). -/
def AllUnmatched (entrance : String) (maxDist : Int) (maxGone : Nat) (id : Nat) :
    CentroidMap → List (List Point) → Prop
  | _, [] => True
  | cm, ps :: rest => id ∉ matchedIds entrance maxDist cm ps ∧
      AllUnmatched entrance maxDist maxGone id
        (CentroidMap.Update entrance maxDist maxGone cm ps) rest

lemma c5_present_aux (entrance : String) (maxDist : Int) (maxGone : Nat) (id : Nat) :
    ∀ (pss : List (List Point)) (cm : CentroidMap) (c : Centroid),
      CInv cm → lookupId cm.items id = some c →
      AllUnmatched entrance maxDist maxGone id cm pss →
      c.goneCount + pss.length ≤ maxGone →
      lookupId (runCent entrance maxDist maxGone cm pss).items id =
        some {c with goneCount := c.goneCount + pss.length} := by
  intro pss
  induction pss with
  | nil =>
    intro cm c hinv hc hun hle
    simp only [runCent, List.length_nil, Nat.add_zero]
    rw [hc]
  | cons ps rest ih =>
    intro cm c hinv hc hun hle
    simp only [List.length_cons] at hle
    obtain ⟨hun1, hun2⟩ := hun
    have hstep := lookupId_centUpdate_unmatched entrance maxDist maxGone cm ps hinv hc hun1
    rw [if_neg (by omega)] at hstep
    simp only [runCent, List.length_cons]
    have hrec := ih (CentroidMap.Update entrance maxDist maxGone cm ps)
      {c with goneCount := c.goneCount + 1}
      (cinv_centUpdate entrance maxDist maxGone cm ps hinv) hstep hun2
      (by show c.goneCount + 1 + rest.length ≤ maxGone; omega)
    rw [hrec]
    congr 2
    show c.goneCount + 1 + rest.length = c.goneCount + (rest.length + 1)
    omega

lemma c5_evict_aux (entrance : String) (maxDist : Int) (maxGone : Nat) (id : Nat) :
    ∀ (pss : List (List Point)) (cm : CentroidMap) (c : Centroid),
      CInv cm → lookupId cm.items id = some c →
      AllUnmatched entrance maxDist maxGone id cm pss →
      c.goneCount ≤ maxGone →
      c.goneCount + pss.length = maxGone + 1 →
      lookupId (runCent entrance maxDist maxGone cm pss).items id = none := by
  intro pss
  induction pss with
  | nil =>
    intro cm c hinv hc hun hle heq
    simp only [List.length_nil] at heq
    omega
  | cons ps rest ih =>
    intro cm c hinv hc hun hle heq
    simp only [List.length_cons] at heq
    obtain ⟨hun1, hun2⟩ := hun
    have hstep := lookupId_centUpdate_unmatched entrance maxDist maxGone cm ps hinv hc hun1
    by_cases hev : c.goneCount + 1 > maxGone
    · rw [if_pos hev] at hstep
      have hlen : rest.length = 0 := by omega
      rw [List.length_eq_zero] at hlen
      subst hlen
      simp only [runCent]
      exact hstep
    · rw [if_neg hev] at hstep
      simp only [runCent]
      refine ih (CentroidMap.Update entrance maxDist maxGone cm ps)
        {c with goneCount := c.goneCount + 1}
        (cinv_centUpdate entrance maxDist maxGone cm ps hinv) hstep hun2 ?_ ?_
      · show c.goneCount + 1 ≤ maxGone
        omega
      · show c.goneCount + 1 + rest.length = maxGone + 1
        omega

/-- Claim C5: a centroid matched by no point in any subsequent update has its
goneCount incremented by exactly 1 per unmatched update starting from 0, stays
tracked with goneCount k after any k of at most maxGone unmatched updates, and
is removed exactly on the (maxGone + 1)-th consecutive unmatched update. -/
theorem c5_unmatched_eviction (entrance : String) (maxDist : Int) (maxGone : Nat)
    (cm : CentroidMap) (id : Nat) (c : Centroid) (pss : List (List Point))
    (hinv : CInv cm) (hc : lookupId cm.items id = some c) (hg : c.goneCount = 0)
    (hun : AllUnmatched entrance maxDist maxGone id cm pss) :
    (pss.length ≤ maxGone →
      lookupId (runCent entrance maxDist maxGone cm pss).items id =
        some {c with goneCount := pss.length}) ∧
    (pss.length = maxGone + 1 →
      lookupId (runCent entrance maxDist maxGone cm pss).items id = none) := by
  constructor
  · intro hle
    have hres := c5_present_aux entrance maxDist maxGone id pss cm c hinv hc hun (by omega)
    rw [hres]
    congr 2
    omega
  · intro heq
    exact c5_evict_aux entrance maxDist maxGone id pss cm c hinv hc hun (by omega) (by omega)

/-- Witness for claim C5: one centroid, maxGone = 1, two empty updates; after
the second unmatched update the centroid is evicted. -/
theorem c5_unmatched_eviction_witness :
    CInv {next := 1, items := [(0, {ID := 0, Point := {X := 5, Y := 5}, goneCount := 0})]} ∧
    lookupId (runCent "b" 300 1
      {next := 1, items := [(0, {ID := 0, Point := {X := 5, Y := 5}, goneCount := 0})]}
      [[], []]).items 0 = none :=
  ⟨⟨by decide, by decide, by decide⟩,
   (c5_unmatched_eviction "b" 300 1
     {next := 1, items := [(0, {ID := 0, Point := {X := 5, Y := 5}, goneCount := 0})]}
     0 {ID := 0, Point := {X := 5, Y := 5}, goneCount := 0} [[], []]
     ⟨by decide, by decide, by decide⟩ (by decide) rfl
     ⟨by decide, by decide, trivial⟩).2 rfl⟩

/-! ## System-level lemmas for the counting invariants -/

lemma keys_carsTrackNew_subset (entrance : String) :
    ∀ (cents : List (Nat × Centroid)) (cm : CarMap),
      (∀ kv ∈ cents, kv.1 = kv.2.ID) →
      ∀ k ∈ keys (carsTrackNew entrance cents cm), k ∈ keys cm ∨ k ∈ keys cents := by
  intro cents
  induction cents with
  | nil =>
    intro cm hids k h
    exact Or.inl h
  | cons kv rest ih =>
    intro cm hids k h
    have hkv : kv.1 = kv.2.ID := hids kv (by simp)
    have hidsr : ∀ kv0 ∈ rest, kv0.1 = kv0.2.ID := fun kv0 hm => hids kv0 (by simp [hm])
    cases hl : lookupId cm kv.1 with
    | none =>
      simp only [carsTrackNew, hl] at h
      rcases ih _ hidsr k h with hc | hc
      · simp only [CarMap.Add, keys, List.map_append, List.map_cons, List.map_nil] at hc
        rcases List.mem_append.mp hc with h2 | h2
        · exact Or.inl h2
        · simp only [List.mem_singleton] at h2
          right
          simp only [keys, List.map_cons, List.mem_cons]
          exact Or.inl (by rw [h2, ← hkv])
      · right
        simp only [keys, List.map_cons, List.mem_cons]
        exact Or.inr hc
    | some car =>
      simp only [carsTrackNew, hl] at h
      rcases ih _ hidsr k h with hc | hc
      · rw [setId, keys_mapEntry] at hc
        exact Or.inl hc
      · right
        simp only [keys, List.map_cons, List.mem_cons]
        exact Or.inr hc

lemma nodup_carsTrackNew (entrance : String) :
    ∀ (cents : List (Nat × Centroid)) (cm : CarMap),
      (∀ kv ∈ cents, kv.1 = kv.2.ID) →
      (keys cm).Nodup → (keys (carsTrackNew entrance cents cm)).Nodup := by
  intro cents
  induction cents with
  | nil =>
    intro cm hids hnd
    exact hnd
  | cons kv rest ih =>
    intro cm hids hnd
    have hkv : kv.1 = kv.2.ID := hids kv (by simp)
    have hidsr : ∀ kv0 ∈ rest, kv0.1 = kv0.2.ID := fun kv0 hm => hids kv0 (by simp [hm])
    cases hl : lookupId cm kv.1 with
    | none =>
      simp only [carsTrackNew, hl]
      refine ih _ hidsr ?_
      have hnm : kv.2.ID ∉ keys cm := by
        rw [← hkv]
        exact (lookupId_eq_none_iff cm kv.1).mp hl
      simp only [CarMap.Add, keys, List.map_append, List.map_cons, List.map_nil]
      rw [List.nodup_append]
      refine ⟨hnd, List.nodup_singleton _, ?_⟩
      intro a ha hb
      simp only [List.mem_singleton] at hb
      subst hb
      exact hnm ha
    | some car =>
      simp only [carsTrackNew, hl]
      refine ih _ hidsr ?_
      rw [setId, keys_mapEntry]
      exact hnd

lemma mem_carsTrackNew (entrance : String) :
    ∀ (cents : List (Nat × Centroid)) (cm : CarMap),
      (∀ kv ∈ cents, kv.1 = kv.2.ID) →
      (keys cm).Nodup →
      ∀ kv2 ∈ carsTrackNew entrance cents cm,
        (∃ kv ∈ cm, kv2.1 = kv.1 ∧ kv2.2.counted = kv.2.counted ∧ kv2.2.gone = kv.2.gone) ∨
        (kv2.2.counted = false ∧ kv2.2.gone = false) := by
  intro cents
  induction cents with
  | nil =>
    intro cm hids hnd kv2 h
    exact Or.inl ⟨kv2, h, rfl, rfl, rfl⟩
  | cons kv rest ih =>
    intro cm hids hnd kv2 h
    have hkv : kv.1 = kv.2.ID := hids kv (by simp)
    have hidsr : ∀ kv0 ∈ rest, kv0.1 = kv0.2.ID := fun kv0 hm => hids kv0 (by simp [hm])
    cases hl : lookupId cm kv.1 with
    | none =>
      simp only [carsTrackNew, hl] at h
      have hnm : kv.2.ID ∉ keys cm := by
        rw [← hkv]
        exact (lookupId_eq_none_iff cm kv.1).mp hl
      have hnd2 : (keys (CarMap.Add cm kv.2)).Nodup := by
        simp only [CarMap.Add, keys, List.map_append, List.map_cons, List.map_nil]
        rw [List.nodup_append]
        refine ⟨hnd, List.nodup_singleton _, ?_⟩
        intro a ha hb
        simp only [List.mem_singleton] at hb
        subst hb
        exact hnm ha
      rcases ih _ hidsr hnd2 kv2 h with ⟨kv0, hm0, he0, hc0, hg0⟩ | hr
      · simp only [CarMap.Add, List.mem_append, List.mem_singleton] at hm0
        rcases hm0 with hm0 | hm0
        · exact Or.inl ⟨kv0, hm0, he0, hc0, hg0⟩
        · subst hm0
          right
          constructor
          · rw [hc0]
          · rw [hg0]
      · exact Or.inr hr
    | some car =>
      simp only [carsTrackNew, hl] at h
      have hnd2 : (keys (setId cm kv.1 (carStep entrance car kv.2.Point))).Nodup := by
        rw [setId, keys_mapEntry]
        exact hnd
      rcases ih _ hidsr hnd2 kv2 h with ⟨kv0, hm0, he0, hc0, hg0⟩ | hr
      · rw [setId] at hm0
        rcases mem_mapEntry hm0 with ⟨kv1, hm1, he1, hval⟩
        rcases hval with hv | ⟨hk1, hv⟩
        · refine Or.inl ⟨kv1, hm1, he0.trans he1, ?_, ?_⟩
          · rw [hc0, hv]
          · rw [hg0, hv]
        · have hcar : (kv.1, car) ∈ cm := mem_of_lookupId hl
          refine Or.inl ⟨(kv.1, car), hcar, ?_, ?_, ?_⟩
          · rw [he0, he1, hk1]
          · rw [hc0, hv]
            exact carStep_counted entrance car kv.2.Point
          · rw [hg0, hv]
            exact carStep_gone entrance car kv.2.Point
      · exact Or.inr hr

lemma mem_plUpdateList (entrance : String) :
    ∀ (cars : CarMap) (lot : ParkingLot) (kv2 : Nat × Car),
      kv2 ∈ (plUpdateList entrance cars lot).2 →
      ∃ kv ∈ cars, kv2.1 = kv.1 ∧ kv2.2 = (plUpdateCar entrance kv.2).car ∧
        (plUpdateCar entrance kv.2).keep = true := by
  intro cars
  induction cars with
  | nil =>
    intro lot kv2 h
    simp [plUpdateList] at h
  | cons kv rest ih =>
    intro lot kv2 h
    simp only [plUpdateList] at h
    by_cases hkeep : (plUpdateCar entrance kv.2).keep = true
    · rw [if_pos hkeep] at h
      rcases List.mem_cons.mp h with he | hr
      · subst he
        exact ⟨kv, by simp, rfl, rfl, hkeep⟩
      · obtain ⟨kv0, hm, hp⟩ := ih _ kv2 hr
        exact ⟨kv0, by simp [hm], hp⟩
    · rw [if_neg hkeep] at h
      obtain ⟨kv0, hm, hp⟩ := ih _ kv2 h
      exact ⟨kv0, by simp [hm], hp⟩

/-- The frameRunner state invariant: well-formed centroid map, car keys unique
and below the freshness counter, and the two facts the counting logic rests
on: a gone car's identifier is absent from the centroid map (centroid
identifiers are never reused), and at the end of a frame no car is both gone
and counted (ParkingLot.Update removes counted gone cars). -/
def InvS (s : SysState) : Prop :=
  CInv s.centroids ∧ (keys s.cars).Nodup ∧
    (∀ kv ∈ s.cars, kv.1 < s.centroids.next) ∧
    (∀ kv ∈ s.cars, kv.2.gone = true → lookupId s.centroids.items kv.1 = none) ∧
    (∀ kv ∈ s.cars, kv.2.gone = true → kv.2.counted = false)

lemma update_cars_facts (entrance : String) (maxDist : Int) (maxGone : Nat)
    (s : SysState) (ps : List Point) (hinv : InvS s) :
    (keys (CarMap.Update entrance s.cars
        (CentroidMap.Update entrance maxDist maxGone s.centroids ps))).Nodup ∧
    (∀ kv ∈ CarMap.Update entrance s.cars
        (CentroidMap.Update entrance maxDist maxGone s.centroids ps),
      kv.1 < (CentroidMap.Update entrance maxDist maxGone s.centroids ps).next) ∧
    (∀ kv ∈ CarMap.Update entrance s.cars
        (CentroidMap.Update entrance maxDist maxGone s.centroids ps),
      kv.2.gone = true →
      lookupId (CentroidMap.Update entrance maxDist maxGone s.centroids ps).items kv.1 = none) := by
  obtain ⟨⟨hc1, hc2, hc3⟩, hn, hb, hga, hgc⟩ := hinv
  obtain ⟨hc1b, hc2b, hc3b⟩ :=
    cinv_centUpdate entrance maxDist maxGone s.centroids ps ⟨hc1, hc2, hc3⟩
  have hmono := centUpdate_next_mono entrance maxDist maxGone s.centroids ps
  have hndm : (keys (carsMarkGone
      (CentroidMap.Update entrance maxDist maxGone s.centroids ps).items s.cars)).Nodup :=
    List.Nodup.sublist (keys_carsMarkGone_sublist _ _) hn
  refine ⟨nodup_carsTrackNew entrance _ _ hc3b hndm, ?_, ?_⟩
  · intro kv hm
    have hk : kv.1 ∈ keys (CarMap.Update entrance s.cars
        (CentroidMap.Update entrance maxDist maxGone s.centroids ps)) :=
      List.mem_map_of_mem Prod.fst hm
    rcases keys_carsTrackNew_subset entrance _ _ hc3b kv.1 hk with h2 | h2
    · have h3 := (keys_carsMarkGone_sublist _ _).subset h2
      simp only [keys, List.mem_map] at h3
      obtain ⟨kv0, hm0, he0⟩ := h3
      have hlt := hb kv0 hm0
      omega
    · simp only [keys, List.mem_map] at h2
      obtain ⟨kv0, hm0, he0⟩ := h2
      have hlt := hc2b kv0 hm0
      omega
  · intro kv hm hgone
    rcases mem_carsTrackNew entrance _ _ hc3b hndm kv hm with ⟨kv0, hm0, he0, hcc, hgg⟩ | ⟨_, hr⟩
    · have hg0 : kv0.2.gone = true := by
        rw [← hgg]
        exact hgone
      obtain ⟨kv1, hm1, he1, hcase⟩ := mem_carsMarkGone hm0
      rcases hcase with hv | ⟨habs, hv⟩
      · have hg1 : kv1.2.gone = true := by
          rw [← hv]
          exact hg0
        have habs_old := hga kv1 hm1 hg1
        have hlt1 : kv1.1 < s.centroids.next := hb kv1 hm1
        have habs_new := lookupId_centUpdate_absent entrance maxDist maxGone
          s.centroids ps hlt1 habs_old
        rw [he0, he1]
        exact habs_new
      · rw [he0, he1]
        exact habs
    · rw [hr] at hgone
      simp at hgone

lemma invS_step (entrance : String) (maxDist : Int) (maxGone : Nat)
    (s : SysState) (ps : List Point) (hinv : InvS s) :
    InvS (sysStep entrance maxDist maxGone s ps) := by
  obtain ⟨hndu, hbu, hgau⟩ := update_cars_facts entrance maxDist maxGone s ps hinv
  obtain ⟨hcinv, hn, hb, hga, hgc⟩ := hinv
  have hcinv2 := cinv_centUpdate entrance maxDist maxGone s.centroids ps hcinv
  refine ⟨hcinv2, ?_, ?_, ?_, ?_⟩
  · exact List.Nodup.sublist (keys_plUpdateList_sublist _ _ _) hndu
  · intro kv hm
    obtain ⟨kv0, hm0, he0, hv0, hk0⟩ := mem_plUpdateList entrance _ _ kv hm
    rw [he0]
    exact hbu kv0 hm0
  · intro kv hm hgone
    obtain ⟨kv0, hm0, he0, hv0, hk0⟩ := mem_plUpdateList entrance _ _ kv hm
    have hg0 : kv0.2.gone = true := by
      rw [hv0, plUpdateCar_car_gone] at hgone
      exact hgone
    rw [he0]
    exact hgau kv0 hm0 hg0
  · intro kv hm hgone
    obtain ⟨kv0, hm0, he0, hv0, hk0⟩ := mem_plUpdateList entrance _ _ kv hm
    rw [hv0]
    refine plUpdateCar_kept_gone_not_counted entrance kv0.2 hk0 ?_
    rw [← hv0]
    exact hgone

/-- An identifier that is dead in a state: below the freshness counter and
absent from both the centroid map and the car map. Dead identifiers never
come back, because fresh centroids always draw identifiers from the counter. -/
def Dead (s : SysState) (id : Nat) : Prop :=
  id < s.centroids.next ∧ lookupId s.centroids.items id = none ∧ lookupId s.cars id = none

lemma dead_step (entrance : String) (maxDist : Int) (maxGone : Nat)
    (s : SysState) (ps : List Point) (hinv : InvS s) (id : Nat) (hd : Dead s id) :
    Dead (sysStep entrance maxDist maxGone s ps) id := by
  obtain ⟨hndu, hbu, hgau⟩ := update_cars_facts entrance maxDist maxGone s ps hinv
  obtain ⟨⟨hc1, hc2, hc3⟩, hn, hb, hga, hgc⟩ := hinv
  obtain ⟨hlt, hcnone, hcarnone⟩ := hd
  have hmono := centUpdate_next_mono entrance maxDist maxGone s.centroids ps
  have hcnone2 := lookupId_centUpdate_absent entrance maxDist maxGone s.centroids ps hlt hcnone
  obtain ⟨hc1b, hc2b, hc3b⟩ :=
    cinv_centUpdate entrance maxDist maxGone s.centroids ps ⟨hc1, hc2, hc3⟩
  refine ⟨?_, hcnone2, ?_⟩
  · show id < (CentroidMap.Update entrance maxDist maxGone s.centroids ps).next
    omega
  have h1 : lookupId (carsMarkGone
      (CentroidMap.Update entrance maxDist maxGone s.centroids ps).items s.cars) id = none :=
    lookupId_carsMarkGone_none hcarnone
  have h2 : lookupId (CarMap.Update entrance s.cars
      (CentroidMap.Update entrance maxDist maxGone s.centroids ps)) id = none := by
    rw [CarMap.Update]
    rw [lookupId_carsTrackNew_notin entrance _ id hc3b ((lookupId_eq_none_iff _ _).mp hcnone2)]
    exact h1
  show lookupId (plUpdateList entrance (CarMap.Update entrance s.cars
      (CentroidMap.Update entrance maxDist maxGone s.centroids ps)) s.lot).2 id = none
  rw [lookupId_plUpdateList entrance _ s.lot id hndu, h2]

/-- The identifier currently holds a counted car. -/
def CountedAt (s : SysState) (id : Nat) : Prop :=
  ∃ c, lookupId s.cars id = some c ∧ c.counted = true

lemma counted_step (entrance : String) (maxDist : Int) (maxGone : Nat)
    (s : SysState) (ps : List Point) (hinv : InvS s) (id : Nat)
    (h : CountedAt s id) :
    CountedAt (sysStep entrance maxDist maxGone s ps) id ∨
      Dead (sysStep entrance maxDist maxGone s ps) id := by
  obtain ⟨c, hc, hcnt⟩ := h
  obtain ⟨hndu, hbu, hgau⟩ := update_cars_facts entrance maxDist maxGone s ps hinv
  obtain ⟨⟨hc1, hc2, hc3⟩, hn, hb, hga, hgc⟩ := hinv
  obtain ⟨hc1b, hc2b, hc3b⟩ :=
    cinv_centUpdate entrance maxDist maxGone s.centroids ps ⟨hc1, hc2, hc3⟩
  have hgonefalse : c.gone = false := by
    cases h2 : c.gone with
    | false => rfl
    | true =>
      have h3 := hgc (id, c) (mem_of_lookupId hc) h2
      rw [hcnt] at h3
      exact Bool.noConfusion h3
  have hmg := lookupId_carsMarkGone
    (CentroidMap.Update entrance maxDist maxGone s.centroids ps).items s.cars id hn
  simp only [hc] at hmg
  have hm2 : ∃ c2, lookupId (CarMap.Update entrance s.cars
      (CentroidMap.Update entrance maxDist maxGone s.centroids ps)) id = some c2 ∧
      c2.counted = true := by
    cases hce : lookupId (CentroidMap.Update entrance maxDist maxGone
        s.centroids ps).items id with
    | some cent =>
      simp only [hce] at hmg
      refine ⟨carStep entrance c cent.Point, ?_, ?_⟩
      · rw [CarMap.Update]
        exact lookupId_carsTrackNew_found entrance _ id cent hc3b hc1b hce _ c hmg
      · rw [carStep_counted]
        exact hcnt
    | none =>
      simp only [hce] at hmg
      rw [if_neg (by simp [hgonefalse])] at hmg
      refine ⟨{c with gone := true}, ?_, hcnt⟩
      rw [CarMap.Update]
      rw [lookupId_carsTrackNew_notin entrance _ id hc3b ((lookupId_eq_none_iff _ _).mp hce)]
      exact hmg
  obtain ⟨c2, hm2l, hm2c⟩ := hm2
  have hfin := lookupId_plUpdateList entrance (CarMap.Update entrance s.cars
    (CentroidMap.Update entrance maxDist maxGone s.centroids ps)) s.lot id hndu
  simp only [hm2l] at hfin
  by_cases hkeep : (plUpdateCar entrance c2).keep = true
  · rw [if_pos hkeep] at hfin
    left
    exact ⟨(plUpdateCar entrance c2).car, hfin, plUpdateCar_counted_mono entrance c2 hm2c⟩
  · rw [if_neg hkeep] at hfin
    right
    have hg2 : c2.gone = true := by
      have hnoop := plUpdateCar_counted_noop entrance c2 hm2c
      rw [hnoop] at hkeep
      cases hgval : c2.gone with
      | true => rfl
      | false =>
        rw [hgval] at hkeep
        exact absurd rfl hkeep
    have habs := hgau (id, c2) (mem_of_lookupId hm2l) hg2
    have hblt := hbu (id, c2) (mem_of_lookupId hm2l)
    exact ⟨hblt, habs, hfin⟩

lemma countedOrDead_runSteps (entrance : String) (maxDist : Int) (maxGone : Nat) (id : Nat) :
    ∀ (pss : List (List Point)) (s : SysState), InvS s →
      (CountedAt s id ∨ Dead s id) →
      InvS (runSteps entrance maxDist maxGone s pss) ∧
        (CountedAt (runSteps entrance maxDist maxGone s pss) id ∨
          Dead (runSteps entrance maxDist maxGone s pss) id) := by
  intro pss
  induction pss with
  | nil =>
    intro s hinv hcd
    exact ⟨hinv, hcd⟩
  | cons ps rest ih =>
    intro s hinv hcd
    have hstep : CountedAt (sysStep entrance maxDist maxGone s ps) id ∨
        Dead (sysStep entrance maxDist maxGone s ps) id := by
      rcases hcd with hcnt | hdead
      · exact counted_step entrance maxDist maxGone s ps hinv id hcnt
      · exact Or.inr (dead_step entrance maxDist maxGone s ps hinv id hdead)
    exact ih (sysStep entrance maxDist maxGone s ps) (invS_step entrance maxDist maxGone s ps hinv) hstep

/-! ## Claims C4 and C8 -/

/-- Claim C4: once a tracked object is counted it stays counted for as long as
its identifier lives (removed identifiers never come back, since fresh
centroids always draw new identifiers), and in every subsequent Zone Counter
update its processing contributes zero to TotalIn and TotalOut and leaves the
car record unchanged; ParkingLot.Update accumulates exactly these per-car
contributions (plUpdateList_spec). In particular counted moves from false to
true at most once per object lifetime. -/
theorem c4_counted_once (entrance : String) (maxDist : Int) (maxGone : Nat)
    (s : SysState) (id : Nat) (c : Car)
    (hinv : InvS s) (hc : lookupId s.cars id = some c) (hcnt : c.counted = true) :
    ∀ (pss : List (List Point)) (c2 : Car),
      lookupId (runSteps entrance maxDist maxGone s pss).cars id = some c2 →
      c2.counted = true ∧ (plUpdateCar entrance c2).dIn = 0 ∧
        (plUpdateCar entrance c2).dOut = 0 ∧ (plUpdateCar entrance c2).car = c2 := by
  intro pss c2 hc2
  have hrun := countedOrDead_runSteps entrance maxDist maxGone id pss s hinv
    (Or.inl ⟨c, hc, hcnt⟩)
  rcases hrun.2 with ⟨c3, hc3, hcnt3⟩ | hdead
  · rw [hc2] at hc3
    injection hc3 with h3
    subst h3
    have hnoop := plUpdateCar_counted_noop entrance c2 hcnt3
    refine ⟨hcnt3, ?_, ?_, ?_⟩
    · rw [hnoop]
    · rw [hnoop]
    · rw [hnoop]
  · rw [hdead.2.2] at hc2
    exact Option.noConfusion hc2

/-- One already counted car in a well-formed state, for the claim C4 witness. -/
def c4Car : Car :=
  {ID := 0, Traject := [], Dir := Direction.UP, counted := true, gone := false}

/-- The claim C4 witness state: the counted car alone, freshness counter 1. -/
def c4State : SysState :=
  {centroids := {next := 1, items := []}, cars := [(0, c4Car)],
   lot := {TotalIn := 1, TotalOut := 0}}

/-- Witness for claim C4: the counted car stays counted and contributes zero
to both counters. -/
theorem c4_counted_once_witness :
    lookupId c4State.cars 0 = some c4Car ∧
    (c4Car.counted = true ∧ (plUpdateCar "b" c4Car).dIn = 0 ∧
      (plUpdateCar "b" c4Car).dOut = 0 ∧ (plUpdateCar "b" c4Car).car = c4Car) :=
  ⟨by decide,
   c4_counted_once "b" 300 30 c4State 0 c4Car
     ⟨⟨by decide, by decide, by decide⟩, by decide, by decide, by decide, by decide⟩
     (by decide) rfl [] c4Car (by decide)⟩

/-- Claim C8: in a Trajectory Tracker update, a tracked object whose
identifier is absent from the current centroid set is removed exactly when it
was already gone with direction STILL, and then its counted flag is still
false (a gone car is never counted by the state invariant, every TotalIn
increment sets counted, and every TotalOut increment removes the car in the
same step, so neither counter was ever incremented for it); otherwise it is
marked gone and retained. -/
theorem c8_vanishing_still (entrance : String) (maxDist : Int) (maxGone : Nat)
    (s : SysState) (ps : List Point) (id : Nat) (car : Car)
    (hinv : InvS s) (hcar : lookupId s.cars id = some car)
    (habs : lookupId (CentroidMap.Update entrance maxDist maxGone
      s.centroids ps).items id = none) :
    (car.gone = true ∧ car.Dir = Direction.STILL →
      lookupId (CarMap.Update entrance s.cars
        (CentroidMap.Update entrance maxDist maxGone s.centroids ps)) id = none ∧
      car.counted = false) ∧
    (¬(car.gone = true ∧ car.Dir = Direction.STILL) →
      lookupId (CarMap.Update entrance s.cars
        (CentroidMap.Update entrance maxDist maxGone s.centroids ps)) id =
        some {car with gone := true}) ∧
    (∀ c2 : Car, 1 ≤ (plUpdateCar entrance c2).dIn →
      (plUpdateCar entrance c2).car.counted = true) ∧
    (∀ c2 : Car, 1 ≤ (plUpdateCar entrance c2).dOut →
      (plUpdateCar entrance c2).keep = false) := by
  obtain ⟨⟨hc1, hc2, hc3⟩, hn, hb, hga, hgc⟩ := hinv
  obtain ⟨hc1b, hc2b, hc3b⟩ :=
    cinv_centUpdate entrance maxDist maxGone s.centroids ps ⟨hc1, hc2, hc3⟩
  have hmg := lookupId_carsMarkGone
    (CentroidMap.Update entrance maxDist maxGone s.centroids ps).items s.cars id hn
  simp only [hcar, habs] at hmg
  have htn := lookupId_carsTrackNew_notin entrance
    (CentroidMap.Update entrance maxDist maxGone s.centroids ps).items id hc3b
    ((lookupId_eq_none_iff _ _).mp habs)
  refine ⟨?_, ?_, ?_, ?_⟩
  · intro hgs
    constructor
    · rw [CarMap.Update, htn]
      rw [if_pos hgs] at hmg
      exact hmg
    · exact hgc (id, car) (mem_of_lookupId hcar) hgs.1
  · intro hgs
    rw [CarMap.Update, htn]
    rw [if_neg hgs] at hmg
    exact hmg
  · intro c2 hd
    exact plUpdateCar_dIn_counted entrance c2 hd
  · intro c2 hd
    exact plUpdateCar_dOut_keep entrance c2 hd

/-- A present, never-moved car for the claim C8 witness. -/
def c8Car : Car :=
  {ID := 0, Traject := [], Dir := Direction.UP, counted := false, gone := false}

/-- The claim C8 witness state: one tracked car, empty centroid map. -/
def c8State : SysState :=
  {centroids := {next := 1, items := []}, cars := [(0, c8Car)],
   lot := {TotalIn := 0, TotalOut := 0}}

/-- Witness for claim C8: the car is absent from the updated centroid set and
not yet gone, so the Trajectory Tracker marks it gone and keeps it. -/
theorem c8_vanishing_still_witness :
    lookupId (CentroidMap.Update "b" 300 30 c8State.centroids []).items 0 = none ∧
    lookupId (CarMap.Update "b" c8State.cars
      (CentroidMap.Update "b" 300 30 c8State.centroids [])) 0 =
      some {c8Car with gone := true} :=
  ⟨by decide,
   (c8_vanishing_still "b" 300 30 c8State [] 0 c8Car
     ⟨⟨by decide, by decide, by decide⟩, by decide, by decide, by decide, by decide⟩
     (by decide) (by decide)).2.1 (by decide)⟩
